import Mathlib

/-!
Verification of the row-extraction/aggregation pipeline of the Laredo
St. Charles scraper (`src/laredo.py`).

The pipeline is shallowly embedded: Python values stored in a record are
modelled by `Val`; Python (ordered) dicts by insertion-ordered association
lists with `odGet`/`odSet`; `rows_to_records` by a fold of `processRow`
followed by `finalizeParties`; the rescrape merge of `main` by
`mergeRescrape`; the CSV export of `save_json_csv` by `csvHeaders`/`csvRows`.
Raw table rows are modelled as lists of cells, each carrying the text
pieces the DOM extraction reads (cell text, inner span text, party-chip
text).  Dates are compared through their proleptic-Gregorian ordinals,
matching Python `date` comparison.
-/

set_option maxHeartbeats 4000000

namespace Laredo

/-- A Python value as stored in a record field: a string, an int, or None. -/
inductive Val where
  | vStr (s : String)
  | vInt (n : Int)
  | vNone
  deriving DecidableEq

/-- Python truthiness: `""`, `0` and `None` are falsy. -/
def Val.falsy : Val → Bool
  | .vStr s => s == ""
  | .vInt n => n == 0
  | .vNone => true

/-- `isinstance(v, str)`. -/
def Val.isStr : Val → Bool
  | .vStr _ => true
  | _ => false

/-- Lookup in an insertion-ordered association list (a Python dict). -/
def odGet {K V : Type} [DecidableEq K] : List (K × V) → K → Option V
  | [], _ => none
  | (k', v) :: rest, k => if k' = k then some v else odGet rest k

/-- `d.get(k, default)`. -/
def odGetD {K V : Type} [DecidableEq K] (l : List (K × V)) (k : K) (d : V) : V :=
  (odGet l k).getD d

/-- `d[k] = v` on a Python dict: replace in place if the key exists
(its position is kept), otherwise append. -/
def odSet {K V : Type} [DecidableEq K] : List (K × V) → K → V → List (K × V)
  | [], k, v => [(k, v)]
  | (k', v') :: rest, k, v => if k' = k then (k, v) :: rest else (k', v') :: odSet rest k v

/-- `list(d.keys())`. -/
def odKeys {K V : Type} (l : List (K × V)) : List K := l.map Prod.fst

/-- Python `str.strip()` (ASCII whitespace), written structurally on the
character list so it evaluates by kernel reduction. Behaviourally identical
to `String.trim`. -/
def strTrim (s : String) : String :=
  String.mk (((s.data.dropWhile Char.isWhitespace).reverse.dropWhile Char.isWhitespace).reverse)

/-! ### Python `int(str)` -/

/-- Digit run with single underscores allowed between digits, as accepted by
Python `int`; `acc` is the value of the digits already read. -/
def digitsUnderscoreVal (acc : Nat) : List Char → Option Nat
  | [] => some acc
  | '_' :: c :: rest =>
    if c.isDigit then digitsUnderscoreVal (10 * acc + (c.toNat - 48)) rest else none
  | '_' :: [] => none
  | c :: rest =>
    if c.isDigit then digitsUnderscoreVal (10 * acc + (c.toNat - 48)) rest else none

/-- Python `int(s)` for a string: optional surrounding whitespace, optional
sign, then decimal digits; `none` when the coercion raises `ValueError`. -/
def pyToInt (s : String) : Option Int :=
  match (strTrim s).data with
  | [] => none
  | '-' :: c :: rest =>
    if c.isDigit then (digitsUnderscoreVal (c.toNat - 48) rest).map (fun n => -(n : Int))
    else none
  | '+' :: c :: rest =>
    if c.isDigit then (digitsUnderscoreVal (c.toNat - 48) rest).map (fun n => (n : Int))
    else none
  | c :: rest =>
    if c.isDigit then (digitsUnderscoreVal (c.toNat - 48) rest).map (fun n => (n : Int))
    else none

/-! ### Dates: the two `strptime` formats of `parse_date_mmmd` -/

/-- A parsed `datetime` (the fields the pipeline uses). -/
structure PyDateTime where
  year : Nat
  month : Nat
  day : Nat
  hour : Nat
  minute : Nat
  deriving DecidableEq

def isLeapYear (y : Nat) : Bool := y % 4 == 0 && (y % 100 != 0 || y % 400 == 0)

def daysInMonth (y m : Nat) : Nat :=
  if m = 2 then (if isLeapYear y then 29 else 28)
  else if m = 4 ∨ m = 6 ∨ m = 9 ∨ m = 11 then 30
  else 31

def daysBeforeMonth (y m : Nat) : Nat :=
  (List.range (m - 1)).foldl (fun acc i => acc + daysInMonth y (i + 1)) 0

/-- Proleptic-Gregorian ordinal of a calendar day, as in Python
`date.toordinal` (January 1 of year 1 is day 1). -/
def dateOrdinal (y m d : Nat) : Nat :=
  365 * (y - 1) + (y - 1) / 4 - (y - 1) / 100 + (y - 1) / 400 + daysBeforeMonth y m + d

/-- `dt.date()` as an ordinal; Python `date` comparison is comparison of
these ordinals. -/
def PyDateTime.dateOrd (dt : PyDateTime) : Nat := dateOrdinal dt.year dt.month dt.day

def isAsciiWs (c : Char) : Bool :=
  c == ' ' || c == '\t' || c == '\n' || c == '\r' || c == '\x0b' || c == '\x0c'

def skipWsMany : List Char → List Char
  | c :: rest => if isAsciiWs c then skipWsMany rest else c :: rest
  | [] => []

/-- A literal blank in a `strptime` format matches one-or-more whitespace. -/
def skipWs1 : List Char → Option (List Char)
  | c :: rest => if isAsciiWs c then some (skipWsMany rest) else none
  | [] => none

def monthAbbrevs : List String :=
  ["jan", "feb", "mar", "apr", "may", "jun", "jul", "aug", "sep", "oct", "nov", "dec"]

/-- `%b`: a three-letter month abbreviation, case-insensitively. -/
def matchMonth : List Char → Option (Nat × List Char)
  | c1 :: c2 :: c3 :: rest =>
    match monthAbbrevs.findIdx? (fun a => a == String.mk [c1.toLower, c2.toLower, c3.toLower]) with
    | some i => some (i + 1, rest)
    | none => none
  | _ => none

def digitsToNat (ds : List Char) : Nat := ds.foldl (fun a c => 10 * a + (c.toNat - 48)) 0

/-- One or two decimal digits, read greedily (`%d`, `%I`, `%M` shapes). -/
def take12Digits : List Char → Option (Nat × List Char)
  | c1 :: c2 :: rest =>
    if c1.isDigit then
      if c2.isDigit then some (digitsToNat [c1, c2], rest)
      else some (digitsToNat [c1], c2 :: rest)
    else none
  | [c1] => if c1.isDigit then some (digitsToNat [c1], []) else none
  | [] => none

/-- Exactly four decimal digits (`%Y`). -/
def take4Digits : List Char → Option (Nat × List Char)
  | c1 :: c2 :: c3 :: c4 :: rest =>
    if c1.isDigit && c2.isDigit && c3.isDigit && c4.isDigit then
      some (digitsToNat [c1, c2, c3, c4], rest)
    else none
  | _ => none

def expectChar (c : Char) : List Char → Option (List Char)
  | c' :: rest => if c' = c then some rest else none
  | [] => none

/-- `%p`: AM or PM, case-insensitively; `true` means PM. -/
def matchAmPm : List Char → Option (Bool × List Char)
  | c1 :: c2 :: rest =>
    if c1.toLower == 'a' && c2.toLower == 'm' then some (false, rest)
    else if c1.toLower == 'p' && c2.toLower == 'm' then some (true, rest)
    else none
  | _ => none

/-- The validation `datetime(...)` performs on the matched fields. -/
def mkValidDateTime (y mo d hour mi : Nat) : Option PyDateTime :=
  if 1 ≤ y ∧ 1 ≤ mo ∧ mo ≤ 12 ∧ 1 ≤ d ∧ d ≤ daysInMonth y mo ∧ hour ≤ 23 ∧ mi ≤ 59 then
    some ⟨y, mo, d, hour, mi⟩
  else none

/-- `"%b %d, %Y, %I:%M %p"` against the whole input. -/
def parseFmtLong (cs0 : List Char) : Option PyDateTime := do
  let (mo, cs1) ← matchMonth cs0
  let cs2 ← skipWs1 cs1
  let (d, cs3) ← take12Digits cs2
  if d = 0 || 31 < d then none else do
  let cs4 ← expectChar ',' cs3
  let cs5 ← skipWs1 cs4
  let (y, cs6) ← take4Digits cs5
  let cs7 ← expectChar ',' cs6
  let cs8 ← skipWs1 cs7
  let (hI, cs9) ← take12Digits cs8
  if hI = 0 || 12 < hI then none else do
  let cs10 ← expectChar ':' cs9
  let (mi, cs11) ← take12Digits cs10
  if 59 < mi then none else do
  let cs12 ← skipWs1 cs11
  let (pm, cs13) ← matchAmPm cs12
  if cs13.isEmpty then mkValidDateTime y mo d (hI % 12 + (if pm then 12 else 0)) mi else none

/-- `"%b %d, %Y"` against the whole input. -/
def parseFmtShort (cs0 : List Char) : Option PyDateTime := do
  let (mo, cs1) ← matchMonth cs0
  let cs2 ← skipWs1 cs1
  let (d, cs3) ← take12Digits cs2
  if d = 0 || 31 < d then none else do
  let cs4 ← expectChar ',' cs3
  let cs5 ← skipWs1 cs4
  let (y, cs6) ← take4Digits cs5
  if cs6.isEmpty then mkValidDateTime y mo d 0 0 else none

/-- `parse_date_mmmd`: strip, then try `"%b %d, %Y, %I:%M %p"` and
`"%b %d, %Y"` in that order; unparseable input yields `(None, s)`. -/
def parse_date_mmmd (s : String) : Option PyDateTime × String :=
  let t := strTrim s
  if t = "" then (none, "")
  else
    match parseFmtLong t.data with
    | some dt => (some dt, t)
    | none =>
      match parseFmtShort t.data with
      | some dt => (some dt, t)
      | none => (none, t)

/-! ### Cells, rows and the party/role extraction -/

/-- One table cell: its visible text plus the text of an inner `span` and of
a `.party-chip` child when present (the pieces `extract_party_and_role`
reads off the DOM; `none` models the `NoSuchElement` path). -/
structure Cell where
  text : String
  spanText : Option String
  chipText : Option String
  deriving DecidableEq

def blankCell : Cell := ⟨"", none, none⟩

/-- One raw table row: its `td` cells in order. -/
structure Row where
  tds : List Cell
  deriving DecidableEq

/-- `\w` for the word-boundary test of `\bGRANTOR\b` / `\bGRANTEE\b`. -/
def isWordChar (c : Char) : Bool := c.isAlphanum || c == '_'

def headIsWordChar : List Char → Bool
  | c :: _ => isWordChar c
  | [] => false

/-- Case-insensitive literal match; returns the remainder on success. -/
def matchCI : List Char → List Char → Option (List Char)
  | rest, [] => some rest
  | c :: cs, t :: ts => if c.toLower = t then matchCI cs ts else none
  | [], _ :: _ => none

/-- Try `GRANTOR` then `GRANTEE` at the current position, requiring a word
boundary on the right. -/
def roleAtHead (cs : List Char) : Option String :=
  match matchCI cs ['g', 'r', 'a', 'n', 't', 'o', 'r'] with
  | some rest => if headIsWordChar rest then none else some "GRANTOR"
  | none =>
    match matchCI cs ['g', 'r', 'a', 'n', 't', 'e', 'e'] with
    | some rest => if headIsWordChar rest then none else some "GRANTEE"
    | none => none

/-- `re.search(r"\b(GRANTOR|GRANTEE)\b", s, re.IGNORECASE)`: leftmost match;
`prevIsWord` tells whether the previous character was a word character. -/
def searchRole (prevIsWord : Bool) : List Char → Option String
  | [] => none
  | c :: rest =>
    match (if prevIsWord then none else roleAtHead (c :: rest)) with
    | some r => some r
    | none => searchRole (isWordChar c) rest

/-- `extract_party_and_role`: name from the inner span (falling back to the
full cell text), role from a case-insensitive word search in the chip text;
`"<name> (<ROLE>)"` when both are non-empty, else just the name. -/
def extract_party_and_role (td : Cell) : String :=
  let name := match td.spanText with
    | some s => strTrim s
    | none => strTrim td.text
  let role := match td.chipText with
    | some chipRaw =>
      match searchRole false (strTrim chipRaw).data with
      | some r => r
      | none => ""
    | none => ""
  if name != "" && role != "" then name ++ " (" ++ role ++ ")" else name

/-- `safe_text(tds[i])`. -/
def tdText (row : Row) (i : Nat) : String := strTrim (row.tds.getD i blankCell).text

def rowDocNumber (row : Row) : String := tdText row 3
def rowPartyText (row : Row) : String := extract_party_and_role (row.tds.getD 4 blankCell)
def rowAddlPartyText (row : Row) : String := extract_party_and_role (row.tds.getD 12 blankCell)
def rowBookPageStr (row : Row) : String := tdText row 5
/-- `book_page = safe_text(tds[5]) or None`. -/
def rowBookPage (row : Row) : Val :=
  if rowBookPageStr row = "" then Val.vNone else Val.vStr (rowBookPageStr row)
def rowDocDateRaw (row : Row) : String := tdText row 6
def rowRecordedDateRaw (row : Row) : String := tdText row 7
def rowDocType (row : Row) : String := tdText row 8
def rowAssocDoc (row : Row) : String := tdText row 9
def rowLegalSummary (row : Row) : String := tdText row 10
def rowConsideration (row : Row) : String := tdText row 11
def rowPages (row : Row) : String := tdText row 13

/-! ### The aggregation pass (`rows_to_records`) -/

/-- `min_doc_date`: set only when `days_back > 0`; `nowOrd` is the ordinal of
`datetime.utcnow().date()`. -/
def minDocDateOf (daysBack nowOrd : Int) : Option Int :=
  if 0 < daysBack then some (nowOrd - daysBack) else none

/-- The cutoff test `if min_doc_date and dt_doc and (dt_doc.date() < min_doc_date)`. -/
def filteredOut (minDocDate : Option Int) (dtDoc : Option PyDateTime) : Bool :=
  match minDocDate, dtDoc with
  | some m, some dt => decide ((dt.dateOrd : Int) < m)
  | _, _ => false

abbrev Rec := List (String × Val)

/-- `f"Party{i}"`. -/
def partyKey (i : Nat) : String := "Party" ++ Nat.repr i

def partyFields (maxParties : Nat) : Rec :=
  (List.range maxParties).map (fun i => (partyKey (i + 1), Val.vStr ""))

/-- `int(pages)` with the raw string kept on failure. -/
def coercePages (pages : String) : Val :=
  match pyToInt pages with
  | some n => Val.vInt n
  | none => Val.vStr pages

/-- The record allocated on first occurrence of a doc number, fields in the
order `rows_to_records` assigns them. -/
def mkRecord (countySlug : String) (n maxParties : Nat) (docNumber : String) (bookPage : Val)
    (docDateRaw recordedDateRaw docType assocDoc legalSummary consideration pages : String) :
    Rec :=
  [("id", Val.vStr (countySlug ++ "-" ++ Nat.repr n)),
   ("Doc Number", Val.vStr docNumber)]
  ++ partyFields maxParties
  ++ [("Book & Page", bookPage),
      ("Doc Date", Val.vStr docDateRaw),
      ("Recorded Date", Val.vStr recordedDateRaw),
      ("Doc Type", Val.vStr docType),
      ("Assoc Doc", Val.vStr assocDoc),
      ("Legal Summary", Val.vStr legalSummary),
      ("Consideration", Val.vStr consideration),
      ("Pages", coercePages pages)]

/-- `if not rec.get(key) and s: rec[key] = s`. -/
def updateField (r : Rec) (key s : String) : Rec :=
  if (odGetD r key Val.vNone).falsy && s != "" then odSet r key (Val.vStr s) else r

/-- `if not rec.get("Book & Page") and book_page: rec["Book & Page"] = book_page`
(`book_page` is the string-or-None local). -/
def updBookPage (r : Rec) (bookPage : Val) : Rec :=
  if (odGetD r "Book & Page" Val.vNone).falsy && !bookPage.falsy then
    odSet r "Book & Page" bookPage
  else r

/-- `if (isinstance(rec.get("Pages"), str) or not rec.get("Pages")) and pages: ...`
with the `int(pages)`-or-raw-string assignment. -/
def updPages (r : Rec) (pages : String) : Rec :=
  let p := odGetD r "Pages" Val.vNone
  if (p.isStr || p.falsy) && pages != "" then odSet r "Pages" (coercePages pages) else r

/-- The repeat-occurrence merge block of `rows_to_records` (lines 332-348),
one step per source `if`-statement, in source order.  Note the source has no
line for `Consideration`. -/
def updateRec (r : Rec) (bookPage : Val)
    (docDateRaw recordedDateRaw docType assocDoc legalSummary pages : String) : Rec :=
  updPages
    (updateField
      (updateField
        (updateField
          (updateField
            (updateField (updBookPage r bookPage) "Doc Date" docDateRaw)
            "Recorded Date" recordedDateRaw)
          "Doc Type" docType)
        "Assoc Doc" assocDoc)
      "Legal Summary" legalSummary)
    pages

/-- One step of `for p in [party_text, addl_party_text]: ...` -/
def addPartyTo (pdp : List (String × List String)) (docNumber p : String) :
    List (String × List String) :=
  let pNorm := strTrim p
  let cur := odGetD pdp docNumber []
  if pNorm != "" && !(decide (pNorm ∈ cur)) then odSet pdp docNumber (cur ++ [pNorm]) else pdp

def updateParties (pdp : List (String × List String)) (docNumber partyText addlPartyText : String) :
    List (String × List String) :=
  addPartyTo (addPartyTo pdp docNumber partyText) docNumber addlPartyText

/-- The mutable state of the row loop in `rows_to_records`. -/
structure AggSt where
  bucket : List (String × Rec)
  parties : List (String × List String)
  count : Nat
  deriving DecidableEq

/-- One iteration of the row loop of `rows_to_records`: skip short rows,
rows without a doc number and rows cut off by the date filter; create the
record on first occurrence; run the merge block; accumulate parties. -/
def processRow (countySlug : String) (maxParties : Nat) (minDocDate : Option Int)
    (st : AggSt) (row : Row) : AggSt :=
  if row.tds.length < 14 then st
  else if rowDocNumber row = "" then st
  else if filteredOut minDocDate (parse_date_mmmd (rowDocDateRaw row)).1 then st
  else
    let docNumber := rowDocNumber row
    let bc :=
      if (odGet st.bucket docNumber).isNone then
        (odSet st.bucket docNumber
          (mkRecord countySlug (st.count + 1) maxParties docNumber (rowBookPage row)
            (rowDocDateRaw row) (rowRecordedDateRaw row) (rowDocType row) (rowAssocDoc row)
            (rowLegalSummary row) (rowConsideration row) (rowPages row)),
         st.count + 1)
      else (st.bucket, st.count)
    let r0 := odGetD bc.1 docNumber []
    let r1 := updateRec r0 (rowBookPage row) (rowDocDateRaw row) (rowRecordedDateRaw row)
      (rowDocType row) (rowAssocDoc row) (rowLegalSummary row) (rowPages row)
    { bucket := odSet bc.1 docNumber r1,
      parties := updateParties st.parties docNumber (rowPartyText row) (rowAddlPartyText row),
      count := bc.2 }

def writePartyList (r : Rec) (l : List (Nat × String)) : Rec :=
  l.foldl (fun acc ip => odSet acc (partyKey (ip.1 + 1)) (Val.vStr ip.2)) r

/-- `for i, p in enumerate(parties[:max_parties], start=1): rec[f"Party{i}"] = p`. -/
def writeParties (maxParties : Nat) (r : Rec) (parties : List String) : Rec :=
  writePartyList r (parties.take maxParties).enum

/-- The finalization loop of `rows_to_records`: write each doc's accumulated
parties into its record (skipping a missing or falsy record). -/
def finalizeParties (maxParties : Nat) (pdp : List (String × List String))
    (bucket : List (String × Rec)) : List (String × Rec) :=
  pdp.foldl (fun b kp =>
    match odGet b kp.1 with
    | none => b
    | some r => if r.isEmpty then b else odSet b kp.1 (writeParties maxParties r kp.2)) bucket

/-- `rows_to_records` on already-fetched rows: fold the row loop over the
rows, then finalize parties and return `list(bucket.values())`. -/
def rows_to_records (rows : List Row) (countySlug : String) (maxParties : Nat)
    (daysBack nowOrd : Int) : List Rec :=
  let mdd := minDocDateOf daysBack nowOrd
  let st := rows.foldl (processRow countySlug maxParties mdd) ⟨[], [], 0⟩
  (finalizeParties maxParties st.parties st.bucket).map Prod.snd

/-! ### The rescrape merge (`main`, lines 452-455) -/

/-- `r["Doc Number"]` (all pipeline records carry the key). -/
def docNumOf (r : Rec) : Val := odGetD r "Doc Number" Val.vNone

/-- `by_doc = {r["Doc Number"]: r for r in records}`;
`for r in more: by_doc[r["Doc Number"]] = r`; `records = list(by_doc.values())`. -/
def mergeRescrape (records more : List Rec) : List Rec :=
  let byDoc := records.foldl (fun acc r => odSet acc (docNumOf r) r) []
  let byDoc2 := more.foldl (fun acc r => odSet acc (docNumOf r) r) byDoc
  byDoc2.map Prod.snd

/-! ### The CSV export (`save_json_csv`) -/

/-- Header computation: an ordered dict collecting every key of every record. -/
def csvHeaders (records : List Rec) : List String :=
  odKeys (records.foldl
    (fun hs r => r.foldl (fun hs2 kv => odSet hs2 kv.1 true) hs) ([] : List (String × Bool)))

/-- How `csv.writer` renders a cell value (`None` becomes the empty string). -/
def csvCell : Val → String
  | .vStr s => s
  | .vInt n => Int.repr n
  | .vNone => ""

/-- One cell of a `DictWriter` data row: `rowdict.get(key, restval)` with
`restval = ""`. -/
def renderCsvCell (r : Rec) (k : String) : String :=
  match odGet r k with
  | some v => csvCell v
  | none => ""

/-- The data rows `csv.DictWriter` emits: one per record in order, the cells
in header order. -/
def csvRows (records : List Rec) : List (List String) :=
  records.map (fun r => (csvHeaders records).map (renderCsvCell r))

/-! ### Spec-side definitions (for comparison with the code) -/

/-- Spec-side: the acceptance condition of a row in one pass (enough cells, a
doc number, and not cut off by the date filter). -/
def rowAccepted (mdd : Option Int) (row : Row) : Bool :=
  !(decide (row.tds.length < 14)) && rowDocNumber row != ""
    && !(filteredOut mdd (parse_date_mmmd (rowDocDateRaw row)).1)

/-- Spec-side: "ordered by first appearance" of the spec, on a list of keys. -/
def firstOccur (l : List String) : List String :=
  l.foldl (fun acc k => if k ∈ acc then acc else acc ++ [k]) []

/-- Spec-side: "append `party_text` ... if non-empty and not already present
(exact-string dedup, trim-insensitive)". -/
def addPartySpec (l : List String) (p : String) : List String :=
  let pn := strTrim p
  if pn != "" && !(decide (pn ∈ l)) then l ++ [pn] else l

/-- Spec-side: the Party List of one doc number — fold the accepted rows
carrying that doc number, appending `party_text` then
`additional_party_text` per row. -/
def specPartyList (mdd : Option Int) (rows : List Row) (k : String) : List String :=
  (rows.filter (fun row => rowAccepted mdd row && rowDocNumber row == k)).foldl
    (fun acc row => addPartySpec (addPartySpec acc (rowPartyText row)) (rowAddlPartyText row)) []

def fixedTailKeys : List String :=
  ["Book & Page", "Doc Date", "Recorded Date", "Doc Type", "Assoc Doc",
   "Legal Summary", "Consideration", "Pages"]

/-- The full key list every record of a pass carries. -/
def recKeys (maxParties : Nat) : List String :=
  ["id", "Doc Number"] ++ (List.range maxParties).map (fun i => partyKey (i + 1)) ++ fixedTailKeys

/-! ### Decimal digits of a natural number (for `Nat.repr` injectivity) -/

def natDigits (n : Nat) : List Char :=
  if n < 10 then [Nat.digitChar n]
  else natDigits (n / 10) ++ [Nat.digitChar (n % 10)]
decreasing_by exact Nat.div_lt_self (by omega) (by omega)

def decVal (l : List Char) : Nat := l.foldl (fun a c => 10 * a + (c.toNat - 48)) 0

/-! ### Concrete rows used at concrete inputs -/

def mkPlainCell (s : String) : Cell := ⟨s, none, none⟩

/-- A 14-cell row from the 11 meaningful cell texts (cells 0-2 are unused by
the pipeline). -/
def mkRow (docNumber party bookPage docDate recDate docType assocDoc legal consid addlParty
    pages : String) : Row :=
  ⟨[mkPlainCell "", mkPlainCell "", mkPlainCell "", mkPlainCell docNumber, mkPlainCell party,
    mkPlainCell bookPage, mkPlainCell docDate, mkPlainCell recDate, mkPlainCell docType,
    mkPlainCell assocDoc, mkPlainCell legal, mkPlainCell consid, mkPlainCell addlParty,
    mkPlainCell pages]⟩

/-- Proof-side invariant of the row-loop state after processing `rows`:
bucket keys are the first occurrences of accepted doc numbers, `count` is
the bucket size, ids are positional, each record carries its key and the
fixed key set, Party slots are still empty before finalization, and the
party map agrees with the spec-side Party List. -/
def AggInv (slug : String) (mp : Nat) (mdd : Option Int) (rows : List Row) (st : AggSt) : Prop :=
  odKeys st.bucket = firstOccur ((rows.filter (rowAccepted mdd)).map rowDocNumber)
  ∧ st.count = st.bucket.length
  ∧ (st.bucket.map (fun p => odGetD p.2 "id" Val.vNone)
      = (List.range st.bucket.length).map (fun i => Val.vStr (slug ++ "-" ++ Nat.repr (i + 1))))
  ∧ (∀ p ∈ st.bucket, odGetD p.2 "Doc Number" Val.vNone = Val.vStr p.1)
  ∧ (∀ p ∈ st.bucket, odKeys p.2 = recKeys mp)
  ∧ (∀ p ∈ st.bucket, ∀ i, 1 ≤ i → i ≤ mp → odGetD p.2 (partyKey i) Val.vNone = Val.vStr "")
  ∧ (∀ k, odGetD st.parties k [] = specPartyList mdd rows k)
  ∧ (odKeys st.parties).Nodup

/-! ## Lemmas about the ordered-dict operations -/

@[simp] theorem odKeys_nil {K V : Type} : odKeys ([] : List (K × V)) = [] := rfl

@[simp] theorem odKeys_cons {K V : Type} (p : K × V) (l : List (K × V)) :
    odKeys (p :: l) = p.1 :: odKeys l := rfl

theorem odKeys_append {K V : Type} (l l' : List (K × V)) :
    odKeys (l ++ l') = odKeys l ++ odKeys l' := by
  simp [odKeys]

theorem odGet_odSet_self {K V : Type} [DecidableEq K] (l : List (K × V)) (k : K) (v : V) :
    odGet (odSet l k v) k = some v := by
  induction l with
  | nil => simp [odGet, odSet]
  | cons p rest ih =>
    obtain ⟨k', v'⟩ := p
    by_cases h : k' = k
    · simp [odSet, h, odGet]
    · simp [odSet, h, odGet, ih]

theorem odGet_odSet_ne {K V : Type} [DecidableEq K] (l : List (K × V)) (k k' : K) (v : V)
    (h : k' ≠ k) : odGet (odSet l k v) k' = odGet l k' := by
  induction l with
  | nil => simp [odGet, odSet, Ne.symm h]
  | cons p rest ih =>
    obtain ⟨k0, v0⟩ := p
    by_cases h0 : k0 = k
    · subst h0
      simp [odSet, odGet, Ne.symm h]
    · simp [odSet, h0, odGet, ih]

theorem odKeys_odSet_of_mem {K V : Type} [DecidableEq K] (l : List (K × V)) (k : K) (v : V)
    (h : k ∈ odKeys l) : odKeys (odSet l k v) = odKeys l := by
  induction l with
  | nil => simp [odKeys] at h
  | cons p rest ih =>
    obtain ⟨k0, v0⟩ := p
    by_cases h0 : k0 = k
    · simp [odSet, h0, odKeys]
    · have hmem : k ∈ odKeys rest := by
        have h' := h
        rw [odKeys_cons, List.mem_cons] at h'
        rcases h' with h1 | h1
        · exact absurd h1.symm h0
        · exact h1
      rw [show odSet ((k0, v0) :: rest) k v = (k0, v0) :: odSet rest k v by simp [odSet, h0],
        odKeys_cons, odKeys_cons, ih hmem]

theorem odSet_of_not_mem {K V : Type} [DecidableEq K] (l : List (K × V)) (k : K) (v : V)
    (h : k ∉ odKeys l) : odSet l k v = l ++ [(k, v)] := by
  induction l with
  | nil => simp [odSet]
  | cons p rest ih =>
    obtain ⟨k0, v0⟩ := p
    have h1 : ¬k0 = k := by
      intro he
      exact h (by rw [odKeys_cons, he]; exact List.mem_cons_self _ _)
    have h2 : k ∉ odKeys rest := by
      intro hm
      exact h (by rw [odKeys_cons]; exact List.mem_cons_of_mem _ hm)
    simp [odSet, h1, ih h2]

theorem odGet_eq_none_iff {K V : Type} [DecidableEq K] (l : List (K × V)) (k : K) :
    odGet l k = none ↔ k ∉ odKeys l := by
  induction l with
  | nil => simp [odGet]
  | cons p rest ih =>
    obtain ⟨k0, v0⟩ := p
    rw [odKeys_cons]
    by_cases h0 : k0 = k
    · simp [odGet, h0]
    · rw [List.mem_cons]
      simp only [odGet, if_neg h0, ih]
      constructor
      · intro h hc
        rcases hc with hc | hc
        · exact h0 hc.symm
        · exact h hc
      · intro h hc
        exact h (Or.inr hc)

theorem mem_of_mem_odSet {K V : Type} [DecidableEq K] {l : List (K × V)} {k : K} {v : V}
    {p : K × V} (h : p ∈ odSet l k v) : p = (k, v) ∨ p ∈ l := by
  induction l with
  | nil => simpa [odSet] using h
  | cons q rest ih =>
    obtain ⟨k0, v0⟩ := q
    by_cases h0 : k0 = k
    · simp [odSet, h0] at h
      rcases h with h | h
      · exact Or.inl h
      · exact Or.inr (List.mem_cons_of_mem _ h)
    · simp [odSet, h0] at h
      rcases h with h | h
      · exact Or.inr (by simp [h])
      · rcases ih h with h' | h'
        · exact Or.inl h'
        · exact Or.inr (List.mem_cons_of_mem _ h')

theorem odSet_odSet_same {K V : Type} [DecidableEq K] (l : List (K × V)) (k : K) (v w : V) :
    odSet (odSet l k v) k w = odSet l k w := by
  induction l with
  | nil => simp [odSet]
  | cons p rest ih =>
    obtain ⟨k0, v0⟩ := p
    by_cases h0 : k0 = k
    · simp [odSet, h0]
    · simp [odSet, h0, ih]

theorem odSet_eq_map_of_nodup {K V : Type} [DecidableEq K] (l : List (K × V)) (k : K) (v : V)
    (h : (odKeys l).Nodup) (hk : k ∈ odKeys l) :
    odSet l k v = l.map (fun p => if p.1 = k then (k, v) else p) := by
  induction l with
  | nil => simp [odKeys] at hk
  | cons p rest ih =>
    obtain ⟨k0, v0⟩ := p
    have hnd := List.nodup_cons.mp (show (k0 :: odKeys rest).Nodup from h)
    by_cases h0 : k0 = k
    · subst h0
      have hrest : List.map (fun q : K × V => if q.1 = k0 then (k0, v) else q) rest = rest := by
        conv_rhs => rw [← List.map_id rest]
        refine List.map_congr_left ?_
        intro q hq
        have hq1 : q.1 ∈ odKeys rest := List.mem_map_of_mem Prod.fst hq
        have hne : q.1 ≠ k0 := fun he => hnd.1 (he ▸ hq1)
        simp [hne]
      simp only [odSet, List.map_cons]
      rw [hrest]
      simp
    · have hkrest : k ∈ odKeys rest := by
        have h' := hk
        rw [odKeys_cons, List.mem_cons] at h'
        rcases h' with h1 | h1
        · exact absurd h1.symm h0
        · exact h1
      simp only [odSet, if_neg h0, List.map_cons]
      rw [ih hnd.2 hkrest]

theorem mem_of_odGet_eq_some {K V : Type} [DecidableEq K] {l : List (K × V)} {k : K} {v : V}
    (h : odGet l k = some v) : (k, v) ∈ l := by
  induction l with
  | nil => simp [odGet] at h
  | cons p rest ih =>
    obtain ⟨k0, v0⟩ := p
    by_cases h0 : k0 = k
    · subst h0
      simp [odGet] at h
      simp [h]
    · simp [odGet, h0] at h
      exact List.mem_cons_of_mem _ (ih h)

theorem odGet_eq_some_of_mem {K V : Type} [DecidableEq K] {l : List (K × V)} {k : K} {v : V}
    (h : (odKeys l).Nodup) (hm : (k, v) ∈ l) : odGet l k = some v := by
  induction l with
  | nil => simp at hm
  | cons p rest ih =>
    obtain ⟨k0, v0⟩ := p
    have hnd := List.nodup_cons.mp (show (k0 :: odKeys rest).Nodup from h)
    rcases List.mem_cons.mp hm with hm1 | hm1
    · have hk : k0 = k := by
        have := congrArg Prod.fst hm1
        simpa using this.symm
      have hv : v0 = v := by
        have := congrArg Prod.snd hm1
        simpa using this.symm
      simp [odGet, hk, hv]
    · have hne : k0 ≠ k := by
        intro he
        refine hnd.1 ?_
        rw [he]
        exact List.mem_map_of_mem Prod.fst hm1
      simp [odGet, hne, ih hnd.2 hm1]

theorem odKeys_nodup_odSet {K V : Type} [DecidableEq K] (l : List (K × V)) (k : K) (v : V)
    (h : (odKeys l).Nodup) : (odKeys (odSet l k v)).Nodup := by
  by_cases hk : k ∈ odKeys l
  · rw [odKeys_odSet_of_mem l k v hk]
    exact h
  · rw [odSet_of_not_mem l k v hk, odKeys_append]
    simp [List.nodup_append, h]
    intro a
    exact hk a

/-! ## String-key facts: `f"Party{i}"` never collides with a fixed key -/

theorem party_append_ne (s k : String) (hk : k.data.take 5 ≠ ['P', 'a', 'r', 't', 'y']) :
    "Party" ++ s ≠ k := by
  intro he
  apply hk
  rw [← he, String.data_append]
  rw [show "Party".data = ['P', 'a', 'r', 't', 'y'] from rfl]
  rw [show (5 : Nat) = (['P', 'a', 'r', 't', 'y'] : List Char).length from rfl]
  exact List.take_left _ _

theorem partyKey_ne (i : Nat) (k : String) (hk : k.data.take 5 ≠ ['P', 'a', 'r', 't', 'y']) :
    partyKey i ≠ k :=
  party_append_ne (Nat.repr i) k hk

theorem string_append_left_cancel {a s t : String} (h : a ++ s = a ++ t) : s = t := by
  have hd := congrArg String.data h
  rw [String.data_append, String.data_append] at hd
  exact String.ext (List.append_cancel_left hd)

/-! ## Injectivity of `Nat.repr` (hence of `partyKey`) -/

theorem toDigitsCore_succ (fuel n : Nat) (acc : List Char) :
    Nat.toDigitsCore 10 (fuel + 1) n acc =
      if n / 10 = 0 then Nat.digitChar (n % 10) :: acc
      else Nat.toDigitsCore 10 fuel (n / 10) (Nat.digitChar (n % 10) :: acc) := rfl

theorem natDigits_toDigitsCore (fuel : Nat) : ∀ (n : Nat) (acc : List Char), n ≤ fuel →
    Nat.toDigitsCore 10 (fuel + 1) n acc = natDigits n ++ acc := by
  induction fuel with
  | zero =>
    intro n acc h
    have hn : n = 0 := Nat.le_zero.mp h
    subst hn
    rw [natDigits, toDigitsCore_succ]
    simp
  | succ fuel ih =>
    intro n acc h
    by_cases h10 : n < 10
    · have hz : n / 10 = 0 := Nat.div_eq_of_lt h10
      have hm : n % 10 = n := Nat.mod_eq_of_lt h10
      rw [natDigits, toDigitsCore_succ]
      simp [hz, hm, h10]
    · have hdiv : ¬n / 10 = 0 := by
        intro h0
        exact h10 (by omega)
      have hle : n / 10 ≤ fuel := by
        have := Nat.div_lt_self (show 0 < n by omega) (show 1 < 10 by omega)
        omega
      rw [toDigitsCore_succ, if_neg hdiv]
      rw [ih (n / 10) (Nat.digitChar (n % 10) :: acc) hle]
      conv_rhs => rw [natDigits]
      rw [if_neg h10]
      simp

theorem toDigits_eq_natDigits (n : Nat) : Nat.toDigits 10 n = natDigits n := by
  have := natDigits_toDigitsCore n n [] (Nat.le_refl n)
  simpa [Nat.toDigits] using this

theorem decVal_append_digit (l : List Char) (c : Char) :
    decVal (l ++ [c]) = 10 * decVal l + (c.toNat - 48) := by
  simp [decVal, List.foldl_append]

theorem decVal_natDigits (n : Nat) : decVal (natDigits n) = n := by
  induction n using Nat.strong_induction_on with
  | _ n ih =>
    by_cases h : n < 10
    · rw [natDigits, if_pos h]
      interval_cases n <;> decide
    · rw [natDigits, if_neg h, decVal_append_digit,
        ih (n / 10) (Nat.div_lt_self (by omega) (by omega))]
      have hmod : (Nat.digitChar (n % 10)).toNat - 48 = n % 10 := by
        have h10 : n % 10 < 10 := Nat.mod_lt _ (by omega)
        set k := n % 10 with hk
        interval_cases k <;> decide
      omega

theorem natRepr_injective {a b : Nat} (h : Nat.repr a = Nat.repr b) : a = b := by
  have hd : Nat.toDigits 10 a = Nat.toDigits 10 b := by
    have := congrArg String.data h
    simpa [Nat.repr, List.asString] using this
  rw [toDigits_eq_natDigits, toDigits_eq_natDigits] at hd
  calc a = decVal (natDigits a) := (decVal_natDigits a).symm
    _ = decVal (natDigits b) := by rw [hd]
    _ = b := decVal_natDigits b

theorem partyKey_injective {i j : Nat} (h : partyKey i = partyKey j) : i = j :=
  natRepr_injective (string_append_left_cancel h)

/-! ## `firstOccur` -/

theorem mem_foldl_firstOccur (l : List String) : ∀ (acc : List String) (k : String),
    k ∈ l.foldl (fun acc k => if k ∈ acc then acc else acc ++ [k]) acc ↔ k ∈ acc ∨ k ∈ l := by
  induction l with
  | nil =>
    intro acc k
    simp
  | cons a rest ih =>
    intro acc k
    rw [List.foldl_cons]
    by_cases ha : a ∈ acc
    · rw [if_pos ha, ih]
      constructor
      · intro h
        rcases h with h | h
        · exact Or.inl h
        · exact Or.inr (List.mem_cons_of_mem _ h)
      · intro h
        rcases h with h | h
        · exact Or.inl h
        · rcases List.mem_cons.mp h with h | h
          · exact Or.inl (by rw [h]; exact ha)
          · exact Or.inr h
    · rw [if_neg ha, ih]
      rw [List.mem_append, List.mem_singleton, List.mem_cons]
      constructor
      · intro h
        rcases h with (h | h) | h
        · exact Or.inl h
        · exact Or.inr (Or.inl h)
        · exact Or.inr (Or.inr h)
      · intro h
        rcases h with h | h | h
        · exact Or.inl (Or.inl h)
        · exact Or.inl (Or.inr h)
        · exact Or.inr h

theorem nodup_foldl_firstOccur (l : List String) : ∀ acc : List String, acc.Nodup →
    (l.foldl (fun acc k => if k ∈ acc then acc else acc ++ [k]) acc).Nodup := by
  induction l with
  | nil =>
    intro acc h
    simpa using h
  | cons a rest ih =>
    intro acc h
    rw [List.foldl_cons]
    by_cases ha : a ∈ acc
    · rw [if_pos ha]
      exact ih acc h
    · rw [if_neg ha]
      refine ih _ ?_
      simp [List.nodup_append, h]
      intro b
      exact ha b

theorem mem_firstOccur (l : List String) (k : String) : k ∈ firstOccur l ↔ k ∈ l := by
  rw [firstOccur, mem_foldl_firstOccur]
  simp

theorem firstOccur_nodup (l : List String) : (firstOccur l).Nodup :=
  nodup_foldl_firstOccur l [] List.nodup_nil

theorem firstOccur_snoc (l : List String) (k : String) :
    firstOccur (l ++ [k]) = if k ∈ l then firstOccur l else firstOccur l ++ [k] := by
  rw [firstOccur, List.foldl_append, List.foldl_cons, List.foldl_nil]
  rw [show (l.foldl (fun acc k => if k ∈ acc then acc else acc ++ [k]) []) = firstOccur l from rfl]
  by_cases hk : k ∈ l
  · rw [if_pos ((mem_firstOccur l k).mpr hk), if_pos hk]
  · rw [if_neg (fun h => hk ((mem_firstOccur l k).mp h)), if_neg hk]

/-! ## Lookup across appends, and `partyFields` -/

theorem odGet_append_right {K V : Type} [DecidableEq K] (l l' : List (K × V)) (k : K)
    (h : k ∉ odKeys l) : odGet (l ++ l') k = odGet l' k := by
  induction l with
  | nil => rfl
  | cons p rest ih =>
    obtain ⟨k0, v0⟩ := p
    have h1 : ¬k0 = k := by
      intro he
      exact h (by rw [odKeys_cons, he]; exact List.mem_cons_self _ _)
    have h2 : k ∉ odKeys rest := by
      intro hm
      exact h (by rw [odKeys_cons]; exact List.mem_cons_of_mem _ hm)
    rw [List.cons_append]
    simp only [odGet, if_neg h1]
    exact ih h2

theorem odGet_append_left {K V : Type} [DecidableEq K] {l : List (K × V)} {k : K} {v : V}
    (l' : List (K × V)) (h : odGet l k = some v) : odGet (l ++ l') k = some v := by
  induction l with
  | nil => simp [odGet] at h
  | cons p rest ih =>
    obtain ⟨k0, v0⟩ := p
    by_cases h0 : k0 = k
    · simp only [odGet, if_pos h0] at h
      rw [List.cons_append]
      simp only [odGet, if_pos h0]
      exact h
    · simp only [odGet, if_neg h0] at h
      rw [List.cons_append]
      simp only [odGet, if_neg h0]
      exact ih h

theorem partyKey_not_mem_partyFields (mp i : Nat) (h : mp < i) :
    partyKey i ∉ odKeys (partyFields mp) := by
  intro hm
  rw [partyFields, odKeys, List.map_map] at hm
  simp only [List.mem_map, List.mem_range] at hm
  obtain ⟨j, hj, hji⟩ := hm
  have := partyKey_injective hji
  omega

theorem not_mem_partyFields_keys (mp : Nat) (k : String)
    (hk : k.data.take 5 ≠ ['P', 'a', 'r', 't', 'y']) : k ∉ odKeys (partyFields mp) := by
  intro hm
  rw [partyFields, odKeys, List.map_map] at hm
  simp only [List.mem_map, List.mem_range] at hm
  obtain ⟨j, hj, hji⟩ := hm
  exact partyKey_ne (j + 1) k hk hji

theorem odGet_partyFields (mp : Nat) : ∀ i, 1 ≤ i → i ≤ mp →
    odGet (partyFields mp) (partyKey i) = some (Val.vStr "") := by
  induction mp with
  | zero =>
    intro i h1 h2
    omega
  | succ mp ih =>
    intro i h1 h2
    rw [partyFields, List.range_succ, List.map_append]
    rw [show (List.range mp).map (fun i => (partyKey (i + 1), Val.vStr "")) = partyFields mp
      from rfl]
    by_cases hi : i ≤ mp
    · exact odGet_append_left _ (ih i h1 hi)
    · have hieq : i = mp + 1 := by omega
      rw [odGet_append_right _ _ _ (partyKey_not_mem_partyFields mp i (by omega))]
      subst hieq
      simp [odGet]

theorem odKeys_partyFields (mp : Nat) :
    odKeys (partyFields mp) = (List.range mp).map (fun i => partyKey (i + 1)) := by
  rw [partyFields, odKeys, List.map_map]
  rfl

/-! ## Field lookups through the merge block of `rows_to_records` -/

theorem odGetD_odSet_self' (l : Rec) (k : String) (v : Val) :
    odGetD (odSet l k v) k Val.vNone = v := by
  rw [odGetD, odGet_odSet_self]
  rfl

theorem odGetD_odSet_ne' (l : Rec) (key k : String) (v : Val) (h : k ≠ key) :
    odGetD (odSet l key v) k Val.vNone = odGetD l k Val.vNone := by
  rw [odGetD, odGet_odSet_ne _ _ _ _ h, odGetD]

theorem odGetD_ite_odSet_ne (c : Prop) [Decidable c] (l : Rec) (key k : String) (v : Val)
    (h : k ≠ key) :
    odGetD (if c then odSet l key v else l) k Val.vNone = odGetD l k Val.vNone := by
  split
  · exact odGetD_odSet_ne' l key k v h
  · rfl

theorem odGetD_updateField_ne (r : Rec) (key s k : String) (h : k ≠ key) :
    odGetD (updateField r key s) k Val.vNone = odGetD r k Val.vNone := by
  rw [updateField]
  exact odGetD_ite_odSet_ne _ r key k _ h

theorem odGetD_updateField_self (r : Rec) (key s : String) :
    odGetD (updateField r key s) key Val.vNone =
      if (odGetD r key Val.vNone).falsy && s != "" then Val.vStr s
      else odGetD r key Val.vNone := by
  rw [updateField]
  by_cases hc : ((odGetD r key Val.vNone).falsy && s != "") = true
  · rw [if_pos hc, if_pos hc, odGetD_odSet_self']
  · rw [if_neg hc, if_neg hc]

theorem odKeys_updateField (r : Rec) (key s : String) (h : key ∈ odKeys r) :
    odKeys (updateField r key s) = odKeys r := by
  rw [updateField]
  split
  · exact odKeys_odSet_of_mem _ _ _ h
  · rfl

theorem odKeys_updateField_chain {r' r : Rec} (key s : String) (he : odKeys r' = odKeys r)
    (h : key ∈ odKeys r) : odKeys (updateField r' key s) = odKeys r := by
  rw [odKeys_updateField r' key s (by rw [he]; exact h)]
  exact he

theorem odGetD_updBookPage_ne (r : Rec) (bp : Val) (k : String) (h : k ≠ "Book & Page") :
    odGetD (updBookPage r bp) k Val.vNone = odGetD r k Val.vNone := by
  rw [updBookPage]
  split
  · exact odGetD_odSet_ne' _ _ _ _ h
  · rfl

theorem odGetD_updBookPage_self (r : Rec) (bp : Val) :
    odGetD (updBookPage r bp) "Book & Page" Val.vNone =
      if (odGetD r "Book & Page" Val.vNone).falsy && !bp.falsy then bp
      else odGetD r "Book & Page" Val.vNone := by
  rw [updBookPage]
  by_cases hc : ((odGetD r "Book & Page" Val.vNone).falsy && !bp.falsy) = true
  · rw [if_pos hc, if_pos hc, odGetD_odSet_self']
  · rw [if_neg hc, if_neg hc]

theorem odKeys_updBookPage (r : Rec) (bp : Val) (h : "Book & Page" ∈ odKeys r) :
    odKeys (updBookPage r bp) = odKeys r := by
  rw [updBookPage]
  split
  · exact odKeys_odSet_of_mem _ _ _ h
  · rfl

theorem odGetD_updPages_ne (r : Rec) (pg : String) (k : String) (h : k ≠ "Pages") :
    odGetD (updPages r pg) k Val.vNone = odGetD r k Val.vNone := by
  simp only [updPages]
  split
  · exact odGetD_odSet_ne' _ _ _ _ h
  · rfl

theorem odGetD_updPages_self (r : Rec) (pg : String) :
    odGetD (updPages r pg) "Pages" Val.vNone =
      if ((odGetD r "Pages" Val.vNone).isStr || (odGetD r "Pages" Val.vNone).falsy) && pg != ""
      then coercePages pg else odGetD r "Pages" Val.vNone := by
  simp only [updPages]
  by_cases hc : (((odGetD r "Pages" Val.vNone).isStr || (odGetD r "Pages" Val.vNone).falsy)
      && pg != "") = true
  · rw [if_pos hc, if_pos hc, odGetD_odSet_self']
  · rw [if_neg hc, if_neg hc]

theorem odKeys_updPages (r : Rec) (pg : String) (h : "Pages" ∈ odKeys r) :
    odKeys (updPages r pg) = odKeys r := by
  simp only [updPages]
  split
  · exact odKeys_odSet_of_mem _ _ _ h
  · rfl

/-- Lookup at any key other than the seven the merge block touches passes
through `updateRec` unchanged (in particular `"Consideration"` and
`"Doc Number"`, `"id"`, `Party` slots). -/
theorem odGetD_updateRec_other (r : Rec) (bp : Val) (dd rd dt ad ls pg : String) (k : String)
    (h1 : k ≠ "Book & Page") (h2 : k ≠ "Doc Date") (h3 : k ≠ "Recorded Date")
    (h4 : k ≠ "Doc Type") (h5 : k ≠ "Assoc Doc") (h6 : k ≠ "Legal Summary") (h7 : k ≠ "Pages") :
    odGetD (updateRec r bp dd rd dt ad ls pg) k Val.vNone = odGetD r k Val.vNone := by
  rw [updateRec, odGetD_updPages_ne _ _ _ h7,
    odGetD_updateField_ne _ _ _ _ h6, odGetD_updateField_ne _ _ _ _ h5,
    odGetD_updateField_ne _ _ _ _ h4, odGetD_updateField_ne _ _ _ _ h3,
    odGetD_updateField_ne _ _ _ _ h2, odGetD_updBookPage_ne _ _ _ h1]

theorem odGetD_updateRec_bookPage (r : Rec) (bp : Val) (dd rd dt ad ls pg : String) :
    odGetD (updateRec r bp dd rd dt ad ls pg) "Book & Page" Val.vNone =
      if (odGetD r "Book & Page" Val.vNone).falsy && !bp.falsy then bp
      else odGetD r "Book & Page" Val.vNone := by
  rw [updateRec, odGetD_updPages_ne _ _ _ (by decide : "Book & Page" ≠ "Pages"),
    odGetD_updateField_ne _ _ _ _ (by decide : "Book & Page" ≠ "Legal Summary"),
    odGetD_updateField_ne _ _ _ _ (by decide : "Book & Page" ≠ "Assoc Doc"),
    odGetD_updateField_ne _ _ _ _ (by decide : "Book & Page" ≠ "Doc Type"),
    odGetD_updateField_ne _ _ _ _ (by decide : "Book & Page" ≠ "Recorded Date"),
    odGetD_updateField_ne _ _ _ _ (by decide : "Book & Page" ≠ "Doc Date"),
    odGetD_updBookPage_self]

theorem odGetD_updateRec_docDate (r : Rec) (bp : Val) (dd rd dt ad ls pg : String) :
    odGetD (updateRec r bp dd rd dt ad ls pg) "Doc Date" Val.vNone =
      if (odGetD r "Doc Date" Val.vNone).falsy && dd != "" then Val.vStr dd
      else odGetD r "Doc Date" Val.vNone := by
  rw [updateRec, odGetD_updPages_ne _ _ _ (by decide : "Doc Date" ≠ "Pages"),
    odGetD_updateField_ne _ _ _ _ (by decide : "Doc Date" ≠ "Legal Summary"),
    odGetD_updateField_ne _ _ _ _ (by decide : "Doc Date" ≠ "Assoc Doc"),
    odGetD_updateField_ne _ _ _ _ (by decide : "Doc Date" ≠ "Doc Type"),
    odGetD_updateField_ne _ _ _ _ (by decide : "Doc Date" ≠ "Recorded Date"),
    odGetD_updateField_self,
    odGetD_updBookPage_ne _ _ _ (by decide : "Doc Date" ≠ "Book & Page")]

theorem odGetD_updateRec_recordedDate (r : Rec) (bp : Val) (dd rd dt ad ls pg : String) :
    odGetD (updateRec r bp dd rd dt ad ls pg) "Recorded Date" Val.vNone =
      if (odGetD r "Recorded Date" Val.vNone).falsy && rd != "" then Val.vStr rd
      else odGetD r "Recorded Date" Val.vNone := by
  rw [updateRec, odGetD_updPages_ne _ _ _ (by decide : "Recorded Date" ≠ "Pages"),
    odGetD_updateField_ne _ _ _ _ (by decide : "Recorded Date" ≠ "Legal Summary"),
    odGetD_updateField_ne _ _ _ _ (by decide : "Recorded Date" ≠ "Assoc Doc"),
    odGetD_updateField_ne _ _ _ _ (by decide : "Recorded Date" ≠ "Doc Type"),
    odGetD_updateField_self,
    odGetD_updateField_ne _ _ _ _ (by decide : "Recorded Date" ≠ "Doc Date"),
    odGetD_updBookPage_ne _ _ _ (by decide : "Recorded Date" ≠ "Book & Page")]

theorem odGetD_updateRec_docType (r : Rec) (bp : Val) (dd rd dt ad ls pg : String) :
    odGetD (updateRec r bp dd rd dt ad ls pg) "Doc Type" Val.vNone =
      if (odGetD r "Doc Type" Val.vNone).falsy && dt != "" then Val.vStr dt
      else odGetD r "Doc Type" Val.vNone := by
  rw [updateRec, odGetD_updPages_ne _ _ _ (by decide : "Doc Type" ≠ "Pages"),
    odGetD_updateField_ne _ _ _ _ (by decide : "Doc Type" ≠ "Legal Summary"),
    odGetD_updateField_ne _ _ _ _ (by decide : "Doc Type" ≠ "Assoc Doc"),
    odGetD_updateField_self,
    odGetD_updateField_ne _ _ _ _ (by decide : "Doc Type" ≠ "Recorded Date"),
    odGetD_updateField_ne _ _ _ _ (by decide : "Doc Type" ≠ "Doc Date"),
    odGetD_updBookPage_ne _ _ _ (by decide : "Doc Type" ≠ "Book & Page")]

theorem odGetD_updateRec_assocDoc (r : Rec) (bp : Val) (dd rd dt ad ls pg : String) :
    odGetD (updateRec r bp dd rd dt ad ls pg) "Assoc Doc" Val.vNone =
      if (odGetD r "Assoc Doc" Val.vNone).falsy && ad != "" then Val.vStr ad
      else odGetD r "Assoc Doc" Val.vNone := by
  rw [updateRec, odGetD_updPages_ne _ _ _ (by decide : "Assoc Doc" ≠ "Pages"),
    odGetD_updateField_ne _ _ _ _ (by decide : "Assoc Doc" ≠ "Legal Summary"),
    odGetD_updateField_self,
    odGetD_updateField_ne _ _ _ _ (by decide : "Assoc Doc" ≠ "Doc Type"),
    odGetD_updateField_ne _ _ _ _ (by decide : "Assoc Doc" ≠ "Recorded Date"),
    odGetD_updateField_ne _ _ _ _ (by decide : "Assoc Doc" ≠ "Doc Date"),
    odGetD_updBookPage_ne _ _ _ (by decide : "Assoc Doc" ≠ "Book & Page")]

theorem odGetD_updateRec_legalSummary (r : Rec) (bp : Val) (dd rd dt ad ls pg : String) :
    odGetD (updateRec r bp dd rd dt ad ls pg) "Legal Summary" Val.vNone =
      if (odGetD r "Legal Summary" Val.vNone).falsy && ls != "" then Val.vStr ls
      else odGetD r "Legal Summary" Val.vNone := by
  rw [updateRec, odGetD_updPages_ne _ _ _ (by decide : "Legal Summary" ≠ "Pages"),
    odGetD_updateField_self,
    odGetD_updateField_ne _ _ _ _ (by decide : "Legal Summary" ≠ "Assoc Doc"),
    odGetD_updateField_ne _ _ _ _ (by decide : "Legal Summary" ≠ "Doc Type"),
    odGetD_updateField_ne _ _ _ _ (by decide : "Legal Summary" ≠ "Recorded Date"),
    odGetD_updateField_ne _ _ _ _ (by decide : "Legal Summary" ≠ "Doc Date"),
    odGetD_updBookPage_ne _ _ _ (by decide : "Legal Summary" ≠ "Book & Page")]

theorem odGetD_updateRec_pages (r : Rec) (bp : Val) (dd rd dt ad ls pg : String) :
    odGetD (updateRec r bp dd rd dt ad ls pg) "Pages" Val.vNone =
      if ((odGetD r "Pages" Val.vNone).isStr || (odGetD r "Pages" Val.vNone).falsy) && pg != ""
      then coercePages pg else odGetD r "Pages" Val.vNone := by
  rw [updateRec, odGetD_updPages_self,
    odGetD_updateField_ne _ _ _ _ (by decide : "Pages" ≠ "Legal Summary"),
    odGetD_updateField_ne _ _ _ _ (by decide : "Pages" ≠ "Assoc Doc"),
    odGetD_updateField_ne _ _ _ _ (by decide : "Pages" ≠ "Doc Type"),
    odGetD_updateField_ne _ _ _ _ (by decide : "Pages" ≠ "Recorded Date"),
    odGetD_updateField_ne _ _ _ _ (by decide : "Pages" ≠ "Doc Date"),
    odGetD_updBookPage_ne _ _ _ (by decide : "Pages" ≠ "Book & Page")]

theorem odKeys_updateRec (r : Rec) (bp : Val) (dd rd dt ad ls pg : String)
    (h1 : "Book & Page" ∈ odKeys r) (h2 : "Doc Date" ∈ odKeys r)
    (h3 : "Recorded Date" ∈ odKeys r) (h4 : "Doc Type" ∈ odKeys r)
    (h5 : "Assoc Doc" ∈ odKeys r) (h6 : "Legal Summary" ∈ odKeys r)
    (h7 : "Pages" ∈ odKeys r) :
    odKeys (updateRec r bp dd rd dt ad ls pg) = odKeys r := by
  rw [updateRec]
  have k1 : odKeys (updBookPage r bp) = odKeys r := odKeys_updBookPage r bp h1
  have k2 := odKeys_updateField_chain "Doc Date" dd k1 h2
  have k3 := odKeys_updateField_chain "Recorded Date" rd k2 h3
  have k4 := odKeys_updateField_chain "Doc Type" dt k3 h4
  have k5 := odKeys_updateField_chain "Assoc Doc" ad k4 h5
  have k6 := odKeys_updateField_chain "Legal Summary" ls k5 h6
  rw [odKeys_updPages _ _ (by rw [k6]; exact h7), k6]

/-! ## Lookups in a freshly created record -/

theorem odKeys_mkRecord (slug : String) (n mp : Nat) (dn : String) (bp : Val)
    (dd rd dt ad ls co pg : String) :
    odKeys (mkRecord slug n mp dn bp dd rd dt ad ls co pg) = recKeys mp := by
  rw [mkRecord, recKeys, odKeys_append, odKeys_append, odKeys_partyFields, fixedTailKeys]
  rfl

theorem odGetD_mkRecord_skip (slug : String) (n mp : Nat) (dn : String) (bp : Val)
    (dd rd dt ad ls co pg : String) (k : String)
    (hk : k.data.take 5 ≠ ['P', 'a', 'r', 't', 'y']) (h1 : k ≠ "id") (h2 : k ≠ "Doc Number") :
    odGetD (mkRecord slug n mp dn bp dd rd dt ad ls co pg) k Val.vNone =
      odGetD [("Book & Page", bp), ("Doc Date", Val.vStr dd), ("Recorded Date", Val.vStr rd),
        ("Doc Type", Val.vStr dt), ("Assoc Doc", Val.vStr ad), ("Legal Summary", Val.vStr ls),
        ("Consideration", Val.vStr co), ("Pages", coercePages pg)] k Val.vNone := by
  rw [mkRecord, odGetD, odGet_append_right, odGetD]
  rw [odKeys_append]
  intro hm
  rcases List.mem_append.mp hm with hm | hm
  · rcases List.mem_cons.mp hm with hm1 | hm1
    · exact h1 hm1
    · rcases List.mem_cons.mp hm1 with hm2 | hm2
      · exact h2 hm2
      · simp at hm2
  · exact not_mem_partyFields_keys mp k hk hm

theorem odGetD_mkRecord_id (slug : String) (n mp : Nat) (dn : String) (bp : Val)
    (dd rd dt ad ls co pg : String) :
    odGetD (mkRecord slug n mp dn bp dd rd dt ad ls co pg) "id" Val.vNone =
      Val.vStr (slug ++ "-" ++ Nat.repr n) := by
  simp [mkRecord, odGetD, odGet]

theorem odGetD_mkRecord_docNumber (slug : String) (n mp : Nat) (dn : String) (bp : Val)
    (dd rd dt ad ls co pg : String) :
    odGetD (mkRecord slug n mp dn bp dd rd dt ad ls co pg) "Doc Number" Val.vNone =
      Val.vStr dn := by
  simp [mkRecord, odGetD, odGet]

theorem odGetD_mkRecord_party (slug : String) (n mp : Nat) (dn : String) (bp : Val)
    (dd rd dt ad ls co pg : String) (i : Nat) (hi1 : 1 ≤ i) (hi2 : i ≤ mp) :
    odGetD (mkRecord slug n mp dn bp dd rd dt ad ls co pg) (partyKey i) Val.vNone =
      Val.vStr "" := by
  rw [mkRecord, odGetD]
  rw [show ([(("id" : String), Val.vStr (slug ++ "-" ++ Nat.repr n)),
      ("Doc Number", Val.vStr dn)] ++ partyFields mp) ++
      [(("Book & Page" : String), bp), ("Doc Date", Val.vStr dd),
        ("Recorded Date", Val.vStr rd), ("Doc Type", Val.vStr dt),
        ("Assoc Doc", Val.vStr ad), ("Legal Summary", Val.vStr ls),
        ("Consideration", Val.vStr co), ("Pages", coercePages pg)] =
      [(("id" : String), Val.vStr (slug ++ "-" ++ Nat.repr n)), ("Doc Number", Val.vStr dn)] ++
      (partyFields mp ++
        [(("Book & Page" : String), bp), ("Doc Date", Val.vStr dd),
          ("Recorded Date", Val.vStr rd), ("Doc Type", Val.vStr dt),
          ("Assoc Doc", Val.vStr ad), ("Legal Summary", Val.vStr ls),
          ("Consideration", Val.vStr co), ("Pages", coercePages pg)]) from by
    rw [List.append_assoc]]
  rw [odGet_append_right]
  · rw [odGet_append_left _ (odGet_partyFields mp i hi1 hi2)]
    rfl
  · intro hm
    rcases List.mem_cons.mp hm with hm1 | hm1
    · exact partyKey_ne i "id" (by decide) hm1
    · rcases List.mem_cons.mp hm1 with hm2 | hm2
      · exact partyKey_ne i "Doc Number" (by decide) hm2
      · simp at hm2

/-! ## Generic `odGetD`/`odSet` lookups -/

theorem odGetD_odSet_self_g {K V : Type} [DecidableEq K] (l : List (K × V)) (k : K) (v d : V) :
    odGetD (odSet l k v) k d = v := by
  rw [odGetD, odGet_odSet_self]
  rfl

theorem odGetD_odSet_ne_g {K V : Type} [DecidableEq K] (l : List (K × V)) (k k' : K) (v d : V)
    (h : k' ≠ k) : odGetD (odSet l k v) k' d = odGetD l k' d := by
  rw [odGetD, odGet_odSet_ne _ _ _ _ h, odGetD]

/-! ## Writing the Party List into a record -/

theorem writePartyList_cons (r : Rec) (ip : Nat × String) (l : List (Nat × String)) :
    writePartyList r (ip :: l) = writePartyList (odSet r (partyKey (ip.1 + 1)) (Val.vStr ip.2)) l :=
  rfl

theorem odGetD_writePartyList_ne (l : List (Nat × String)) : ∀ (r : Rec) (k : String),
    k.data.take 5 ≠ ['P', 'a', 'r', 't', 'y'] →
    odGetD (writePartyList r l) k Val.vNone = odGetD r k Val.vNone := by
  induction l with
  | nil =>
    intro r k _
    rfl
  | cons ip rest ih =>
    intro r k hk
    rw [writePartyList_cons, ih _ k hk,
      odGetD_odSet_ne_g _ _ _ _ _ (Ne.symm (partyKey_ne (ip.1 + 1) k hk))]

theorem odKeys_writePartyList (l : List (Nat × String)) : ∀ (r : Rec),
    (∀ ip ∈ l, partyKey (ip.1 + 1) ∈ odKeys r) → odKeys (writePartyList r l) = odKeys r := by
  induction l with
  | nil =>
    intro r _
    rfl
  | cons ip rest ih =>
    intro r h
    rw [writePartyList_cons, ih _ ?_, odKeys_odSet_of_mem _ _ _ (h ip (List.mem_cons_self _ _))]
    intro jp hjp
    rw [odKeys_odSet_of_mem _ _ _ (h ip (List.mem_cons_self _ _))]
    exact h jp (List.mem_cons_of_mem _ hjp)

theorem odGetD_writePartyList_enumFrom (ps : List String) : ∀ (n : Nat) (r : Rec) (i : Nat),
    odGetD (writePartyList r (List.enumFrom n ps)) (partyKey i) Val.vNone =
      if n + 1 ≤ i ∧ i ≤ n + ps.length then Val.vStr (ps.getD (i - n - 1) "")
      else odGetD r (partyKey i) Val.vNone := by
  induction ps with
  | nil =>
    intro n r i
    rw [show List.enumFrom n ([] : List String) = [] from rfl]
    rw [if_neg (by simp; omega)]
    rfl
  | cons p rest ih =>
    intro n r i
    rw [show List.enumFrom n (p :: rest) = (n, p) :: List.enumFrom (n + 1) rest from rfl]
    rw [writePartyList_cons, ih (n + 1) _ i]
    by_cases hi : i = n + 1
    · subst hi
      rw [if_neg (by omega), if_pos (by constructor <;> [omega; simp])]
      rw [odGetD_odSet_self_g]
      rw [show n + 1 - n - 1 = 0 from by omega]
      rfl
    · by_cases hrange : n + 1 + 1 ≤ i ∧ i ≤ n + 1 + rest.length
      · rw [if_pos hrange, if_pos (by simp; omega)]
        rw [show i - n - 1 = (i - (n + 1) - 1) + 1 from by omega]
        rfl
      · rw [if_neg hrange, if_neg (by simp; omega)]
        exact odGetD_odSet_ne_g _ _ _ _ _ (fun he => hi (partyKey_injective he))

theorem odGetD_writeParties_party (mp : Nat) (r : Rec) (ps : List String) (i : Nat)
    (h1 : 1 ≤ i) :
    odGetD (writeParties mp r ps) (partyKey i) Val.vNone =
      if i ≤ (ps.take mp).length then Val.vStr ((ps.take mp).getD (i - 1) "")
      else odGetD r (partyKey i) Val.vNone := by
  rw [writeParties, show (ps.take mp).enum = List.enumFrom 0 (ps.take mp) from rfl,
    odGetD_writePartyList_enumFrom]
  by_cases hc : i ≤ (ps.take mp).length
  · rw [if_pos (by omega), if_pos hc, show i - 0 - 1 = i - 1 from by omega]
  · rw [if_neg (by omega), if_neg hc]

theorem odGetD_writeParties_ne (mp : Nat) (r : Rec) (ps : List String) (k : String)
    (hk : k.data.take 5 ≠ ['P', 'a', 'r', 't', 'y']) :
    odGetD (writeParties mp r ps) k Val.vNone = odGetD r k Val.vNone := by
  rw [writeParties]
  exact odGetD_writePartyList_ne _ r k hk

theorem enumFrom_fst_lt (ps : List String) : ∀ (n : Nat) (ip : Nat × String),
    ip ∈ List.enumFrom n ps → ip.1 < n + ps.length := by
  induction ps with
  | nil =>
    intro n ip h
    simp [List.enumFrom] at h
  | cons p rest ih =>
    intro n ip h
    rw [show List.enumFrom n (p :: rest) = (n, p) :: List.enumFrom (n + 1) rest from rfl] at h
    rcases List.mem_cons.mp h with h1 | h1
    · rw [h1]
      simp
    · have := ih (n + 1) ip h1
      simp only [List.length_cons]
      omega

theorem partyKey_mem_recKeys (mp i : Nat) (h1 : 1 ≤ i) (h2 : i ≤ mp) :
    partyKey i ∈ recKeys mp := by
  rw [recKeys]
  refine List.mem_append.mpr (Or.inl (List.mem_append.mpr (Or.inr ?_)))
  refine List.mem_map.mpr ⟨i - 1, ?_, ?_⟩
  · rw [List.mem_range]
    omega
  · rw [show i - 1 + 1 = i from by omega]

theorem odKeys_writeParties (mp : Nat) (r : Rec) (ps : List String)
    (h : odKeys r = recKeys mp) : odKeys (writeParties mp r ps) = odKeys r := by
  rw [writeParties]
  refine odKeys_writePartyList _ r ?_
  intro ip hip
  have hlt : ip.1 < (ps.take mp).length := by
    have := enumFrom_fst_lt (ps.take mp) 0 ip hip
    omega
  have hmp : ip.1 < mp := by
    have := List.length_take_le mp ps
    omega
  rw [h]
  exact partyKey_mem_recKeys mp (ip.1 + 1) (by omega) (by omega)

/-! ## Party accumulation -/

theorem odGetD_addPartyTo_ne (pdp : List (String × List String)) (dn p k : String)
    (h : k ≠ dn) : odGetD (addPartyTo pdp dn p) k [] = odGetD pdp k [] := by
  rw [addPartyTo]
  split
  · exact odGetD_odSet_ne_g _ _ _ _ _ h
  · rfl

theorem odGetD_addPartyTo_self (pdp : List (String × List String)) (dn p : String) :
    odGetD (addPartyTo pdp dn p) dn [] = addPartySpec (odGetD pdp dn []) p := by
  simp only [addPartyTo, addPartySpec]
  by_cases hc : (strTrim p != "" && !(decide (strTrim p ∈ odGetD pdp dn []))) = true
  · rw [if_pos hc, if_pos hc, odGetD_odSet_self_g]
  · rw [if_neg hc, if_neg hc]

theorem odKeys_nodup_addPartyTo (pdp : List (String × List String)) (dn p : String)
    (h : (odKeys pdp).Nodup) : (odKeys (addPartyTo pdp dn p)).Nodup := by
  rw [addPartyTo]
  split
  · exact odKeys_nodup_odSet _ _ _ h
  · exact h

theorem odGetD_updateParties_ne (pdp : List (String × List String)) (dn pt at2 k : String)
    (h : k ≠ dn) : odGetD (updateParties pdp dn pt at2) k [] = odGetD pdp k [] := by
  rw [updateParties, odGetD_addPartyTo_ne _ _ _ _ h, odGetD_addPartyTo_ne _ _ _ _ h]

theorem odGetD_updateParties_self (pdp : List (String × List String)) (dn pt at2 : String) :
    odGetD (updateParties pdp dn pt at2) dn [] =
      addPartySpec (addPartySpec (odGetD pdp dn []) pt) at2 := by
  rw [updateParties, odGetD_addPartyTo_self, odGetD_addPartyTo_self]

theorem odKeys_nodup_updateParties (pdp : List (String × List String)) (dn pt at2 : String)
    (h : (odKeys pdp).Nodup) : (odKeys (updateParties pdp dn pt at2)).Nodup := by
  rw [updateParties]
  exact odKeys_nodup_addPartyTo _ _ _ (odKeys_nodup_addPartyTo _ _ _ h)

theorem specPartyList_snoc (mdd : Option Int) (rows : List Row) (row : Row) (k : String) :
    specPartyList mdd (rows ++ [row]) k =
      if rowAccepted mdd row && rowDocNumber row == k then
        addPartySpec (addPartySpec (specPartyList mdd rows k) (rowPartyText row))
          (rowAddlPartyText row)
      else specPartyList mdd rows k := by
  rw [specPartyList, List.filter_append]
  by_cases h : (rowAccepted mdd row && rowDocNumber row == k) = true
  · rw [if_pos h]
    rw [show List.filter (fun row => rowAccepted mdd row && rowDocNumber row == k) [row]
      = [row] from by simp [List.filter, h]]
    rw [List.foldl_append, List.foldl_cons, List.foldl_nil, specPartyList]
  · rw [if_neg h]
    have hf : (rowAccepted mdd row && rowDocNumber row == k) = false :=
      Bool.eq_false_iff.mpr h
    rw [show List.filter (fun row => rowAccepted mdd row && rowDocNumber row == k) [row]
      = [] from by simp [List.filter_cons, hf]]
    rw [List.append_nil, specPartyList]

/-! ## Case analysis of `processRow` -/

theorem processRow_not_accepted (slug : String) (mp : Nat) (mdd : Option Int) (st : AggSt)
    (row : Row) (h : rowAccepted mdd row = false) :
    processRow slug mp mdd st row = st := by
  rw [processRow]
  by_cases h1 : row.tds.length < 14
  · rw [if_pos h1]
  · rw [if_neg h1]
    by_cases h2 : rowDocNumber row = ""
    · rw [if_pos h2]
    · rw [if_neg h2]
      by_cases h3 : filteredOut mdd (parse_date_mmmd (rowDocDateRaw row)).1 = true
      · rw [if_pos h3]
      · exfalso
        rw [rowAccepted] at h
        simp [h1, h2, h3] at h

theorem processRow_accepted (slug : String) (mp : Nat) (mdd : Option Int) (st : AggSt)
    (row : Row) (h : rowAccepted mdd row = true) :
    processRow slug mp mdd st row =
      { bucket :=
          odSet
            (if (odGet st.bucket (rowDocNumber row)).isNone then
              odSet st.bucket (rowDocNumber row)
                (mkRecord slug (st.count + 1) mp (rowDocNumber row) (rowBookPage row)
                  (rowDocDateRaw row) (rowRecordedDateRaw row) (rowDocType row)
                  (rowAssocDoc row) (rowLegalSummary row) (rowConsideration row)
                  (rowPages row))
             else st.bucket)
            (rowDocNumber row)
            (updateRec
              (odGetD
                (if (odGet st.bucket (rowDocNumber row)).isNone then
                  odSet st.bucket (rowDocNumber row)
                    (mkRecord slug (st.count + 1) mp (rowDocNumber row) (rowBookPage row)
                      (rowDocDateRaw row) (rowRecordedDateRaw row) (rowDocType row)
                      (rowAssocDoc row) (rowLegalSummary row) (rowConsideration row)
                      (rowPages row))
                 else st.bucket)
                (rowDocNumber row) [])
              (rowBookPage row) (rowDocDateRaw row) (rowRecordedDateRaw row)
              (rowDocType row) (rowAssocDoc row) (rowLegalSummary row) (rowPages row)),
        parties := updateParties st.parties (rowDocNumber row) (rowPartyText row)
          (rowAddlPartyText row),
        count := if (odGet st.bucket (rowDocNumber row)).isNone then st.count + 1
          else st.count } := by
  rw [rowAccepted] at h
  simp only [Bool.and_eq_true, Bool.not_eq_true', decide_eq_false_iff_not, bne_iff_ne,
    Ne, Bool.not_eq_true] at h
  obtain ⟨⟨h1, h2⟩, h3⟩ := h
  rw [processRow, if_neg h1, if_neg h2, if_neg (by rw [h3]; exact Bool.false_ne_true)]
  by_cases hb : (odGet st.bucket (rowDocNumber row)).isNone = true
  · simp [hb]
  · simp [hb]

theorem processRow_accepted_new (slug : String) (mp : Nat) (mdd : Option Int) (st : AggSt)
    (row : Row) (hacc : rowAccepted mdd row = true)
    (hnew : odGet st.bucket (rowDocNumber row) = none) :
    processRow slug mp mdd st row =
      { bucket := odSet st.bucket (rowDocNumber row)
          (updateRec (mkRecord slug (st.count + 1) mp (rowDocNumber row) (rowBookPage row)
            (rowDocDateRaw row) (rowRecordedDateRaw row) (rowDocType row) (rowAssocDoc row)
            (rowLegalSummary row) (rowConsideration row) (rowPages row))
            (rowBookPage row) (rowDocDateRaw row) (rowRecordedDateRaw row) (rowDocType row)
            (rowAssocDoc row) (rowLegalSummary row) (rowPages row)),
        parties := updateParties st.parties (rowDocNumber row) (rowPartyText row)
          (rowAddlPartyText row),
        count := st.count + 1 } := by
  rw [processRow_accepted slug mp mdd st row hacc]
  have hb : (odGet st.bucket (rowDocNumber row)).isNone = true := by
    rw [hnew]
    rfl
  simp only [hb, eq_self_iff_true, if_true]
  rw [odGetD_odSet_self_g, odSet_odSet_same]

theorem processRow_accepted_old (slug : String) (mp : Nat) (mdd : Option Int) (st : AggSt)
    (row : Row) (r0 : Rec) (hacc : rowAccepted mdd row = true)
    (hr0 : odGet st.bucket (rowDocNumber row) = some r0) :
    processRow slug mp mdd st row =
      { bucket := odSet st.bucket (rowDocNumber row)
          (updateRec r0 (rowBookPage row) (rowDocDateRaw row) (rowRecordedDateRaw row)
            (rowDocType row) (rowAssocDoc row) (rowLegalSummary row) (rowPages row)),
        parties := updateParties st.parties (rowDocNumber row) (rowPartyText row)
          (rowAddlPartyText row),
        count := st.count } := by
  rw [processRow_accepted slug mp mdd st row hacc]
  have hb : (odGet st.bucket (rowDocNumber row)).isNone = false := by
    rw [hr0]
    rfl
  simp only [hb, Bool.false_eq_true, if_false]
  rw [show odGetD st.bucket (rowDocNumber row) [] = r0 from by rw [odGetD, hr0]; rfl]

/-! ## The row-loop invariant -/

theorem tailKey_mem_recKeys (mp : Nat) (k : String) (hk : k ∈ fixedTailKeys) :
    k ∈ recKeys mp := by
  rw [recKeys]
  exact List.mem_append.mpr (Or.inr hk)

theorem aggInv_step (slug : String) (mp : Nat) (mdd : Option Int) (rows : List Row)
    (st : AggSt) (row : Row) (h : AggInv slug mp mdd rows st) :
    AggInv slug mp mdd (rows ++ [row]) (processRow slug mp mdd st row) := by
  unfold AggInv at h
  obtain ⟨hkeys, hcount, hids, hdoc, hreck, hparty, hpdp, hpnd⟩ := h
  by_cases hacc : rowAccepted mdd row = true
  case neg =>
    rw [processRow_not_accepted slug mp mdd st row (Bool.eq_false_iff.mpr hacc)]
    have hfilter : (rows ++ [row]).filter (rowAccepted mdd) = rows.filter (rowAccepted mdd) := by
      rw [List.filter_append]
      simp [List.filter_cons, Bool.eq_false_iff.mpr hacc]
    unfold AggInv
    refine ⟨?_, hcount, hids, hdoc, hreck, hparty, ?_, hpnd⟩
    · rw [hfilter]
      exact hkeys
    · intro k
      rw [specPartyList_snoc, if_neg (by simp [Bool.eq_false_iff.mpr hacc]), hpdp k]
  case pos =>
    have hfilter : (rows ++ [row]).filter (rowAccepted mdd)
        = rows.filter (rowAccepted mdd) ++ [row] := by
      rw [List.filter_append]
      simp [List.filter_cons, hacc]
    have hbnd : (odKeys st.bucket).Nodup := by
      rw [hkeys]
      exact firstOccur_nodup _
    have hpdpstep : ∀ k, odGetD (updateParties st.parties (rowDocNumber row)
        (rowPartyText row) (rowAddlPartyText row)) k []
        = specPartyList mdd (rows ++ [row]) k := by
      intro k
      by_cases hk : k = rowDocNumber row
      · subst hk
        rw [odGetD_updateParties_self, hpdp _,
          specPartyList_snoc, if_pos (by simp [hacc])]
      · rw [odGetD_updateParties_ne _ _ _ _ _ hk, hpdp k,
          specPartyList_snoc, if_neg (by simp; intro _; exact fun he => hk he.symm)]
    have hpndstep := odKeys_nodup_updateParties st.parties (rowDocNumber row)
      (rowPartyText row) (rowAddlPartyText row) hpnd
    by_cases hnew : odGet st.bucket (rowDocNumber row) = none
    case pos =>
      have hnotmem : rowDocNumber row ∉ odKeys st.bucket :=
        (odGet_eq_none_iff st.bucket (rowDocNumber row)).mp hnew
      rw [processRow_accepted_new slug mp mdd st row hacc hnew]
      rw [odSet_of_not_mem st.bucket (rowDocNumber row) _ hnotmem]
      have hid1 : odGetD (updateRec
          (mkRecord slug (st.count + 1) mp (rowDocNumber row) (rowBookPage row)
            (rowDocDateRaw row) (rowRecordedDateRaw row) (rowDocType row) (rowAssocDoc row)
            (rowLegalSummary row) (rowConsideration row) (rowPages row))
          (rowBookPage row) (rowDocDateRaw row) (rowRecordedDateRaw row) (rowDocType row)
          (rowAssocDoc row) (rowLegalSummary row) (rowPages row)) "id" Val.vNone
          = Val.vStr (slug ++ "-" ++ Nat.repr (st.count + 1)) := by
        rw [odGetD_updateRec_other _ _ _ _ _ _ _ _ _ (by decide) (by decide) (by decide)
          (by decide) (by decide) (by decide) (by decide), odGetD_mkRecord_id]
      have hdoc1 : odGetD (updateRec
          (mkRecord slug (st.count + 1) mp (rowDocNumber row) (rowBookPage row)
            (rowDocDateRaw row) (rowRecordedDateRaw row) (rowDocType row) (rowAssocDoc row)
            (rowLegalSummary row) (rowConsideration row) (rowPages row))
          (rowBookPage row) (rowDocDateRaw row) (rowRecordedDateRaw row) (rowDocType row)
          (rowAssocDoc row) (rowLegalSummary row) (rowPages row)) "Doc Number" Val.vNone
          = Val.vStr (rowDocNumber row) := by
        rw [odGetD_updateRec_other _ _ _ _ _ _ _ _ _ (by decide) (by decide) (by decide)
          (by decide) (by decide) (by decide) (by decide), odGetD_mkRecord_docNumber]
      have hkeys1 : odKeys (updateRec
          (mkRecord slug (st.count + 1) mp (rowDocNumber row) (rowBookPage row)
            (rowDocDateRaw row) (rowRecordedDateRaw row) (rowDocType row) (rowAssocDoc row)
            (rowLegalSummary row) (rowConsideration row) (rowPages row))
          (rowBookPage row) (rowDocDateRaw row) (rowRecordedDateRaw row) (rowDocType row)
          (rowAssocDoc row) (rowLegalSummary row) (rowPages row)) = recKeys mp := by
        rw [odKeys_updateRec _ _ _ _ _ _ _ _
          (by rw [odKeys_mkRecord]; exact tailKey_mem_recKeys mp _ (by simp [fixedTailKeys]))
          (by rw [odKeys_mkRecord]; exact tailKey_mem_recKeys mp _ (by simp [fixedTailKeys]))
          (by rw [odKeys_mkRecord]; exact tailKey_mem_recKeys mp _ (by simp [fixedTailKeys]))
          (by rw [odKeys_mkRecord]; exact tailKey_mem_recKeys mp _ (by simp [fixedTailKeys]))
          (by rw [odKeys_mkRecord]; exact tailKey_mem_recKeys mp _ (by simp [fixedTailKeys]))
          (by rw [odKeys_mkRecord]; exact tailKey_mem_recKeys mp _ (by simp [fixedTailKeys]))
          (by rw [odKeys_mkRecord]; exact tailKey_mem_recKeys mp _ (by simp [fixedTailKeys])),
          odKeys_mkRecord]
      have hparty1 : ∀ i, 1 ≤ i → i ≤ mp → odGetD (updateRec
          (mkRecord slug (st.count + 1) mp (rowDocNumber row) (rowBookPage row)
            (rowDocDateRaw row) (rowRecordedDateRaw row) (rowDocType row) (rowAssocDoc row)
            (rowLegalSummary row) (rowConsideration row) (rowPages row))
          (rowBookPage row) (rowDocDateRaw row) (rowRecordedDateRaw row) (rowDocType row)
          (rowAssocDoc row) (rowLegalSummary row) (rowPages row)) (partyKey i) Val.vNone
          = Val.vStr "" := by
        intro i hi1 hi2
        rw [odGetD_updateRec_other _ _ _ _ _ _ _ _ _
          (partyKey_ne i _ (by decide)) (partyKey_ne i _ (by decide))
          (partyKey_ne i _ (by decide)) (partyKey_ne i _ (by decide))
          (partyKey_ne i _ (by decide)) (partyKey_ne i _ (by decide))
          (partyKey_ne i _ (by decide)),
          odGetD_mkRecord_party _ _ _ _ _ _ _ _ _ _ _ _ i hi1 hi2]
      have hdnds : rowDocNumber row ∉ (rows.filter (rowAccepted mdd)).map rowDocNumber := by
        intro hm
        exact hnotmem (by rw [hkeys]; exact (mem_firstOccur _ _).mpr hm)
      unfold AggInv
      refine ⟨?_, ?_, ?_, ?_, ?_, ?_, hpdpstep, hpndstep⟩
      · rw [hfilter, List.map_append,
          show List.map rowDocNumber [row] = [rowDocNumber row] from rfl,
          odKeys_append, hkeys, firstOccur_snoc, if_neg hdnds]
        rfl
      · rw [List.length_append, hcount]
        rfl
      · rw [List.map_append, List.length_append, hids]
        rw [show (st.bucket.length + [((rowDocNumber row : String),
          updateRec (mkRecord slug (st.count + 1) mp (rowDocNumber row) (rowBookPage row)
            (rowDocDateRaw row) (rowRecordedDateRaw row) (rowDocType row) (rowAssocDoc row)
            (rowLegalSummary row) (rowConsideration row) (rowPages row))
          (rowBookPage row) (rowDocDateRaw row) (rowRecordedDateRaw row) (rowDocType row)
          (rowAssocDoc row) (rowLegalSummary row) (rowPages row))].length)
          = st.bucket.length + 1 from rfl]
        rw [List.range_succ, List.map_append, List.map_cons, List.map_nil, List.map_cons,
          List.map_nil, hid1, hcount]
      · intro p hp
        rcases List.mem_append.mp hp with hp | hp
        · exact hdoc p hp
        · rcases List.mem_cons.mp hp with hp | hp
          · rw [hp]
            exact hdoc1
          · simp at hp
      · intro p hp
        rcases List.mem_append.mp hp with hp | hp
        · exact hreck p hp
        · rcases List.mem_cons.mp hp with hp | hp
          · rw [hp]
            exact hkeys1
          · simp at hp
      · intro p hp i hi1 hi2
        rcases List.mem_append.mp hp with hp | hp
        · exact hparty p hp i hi1 hi2
        · rcases List.mem_cons.mp hp with hp | hp
          · rw [hp]
            exact hparty1 i hi1 hi2
          · simp at hp
    case neg =>
      have hmem2 : rowDocNumber row ∈ odKeys st.bucket := by
        by_contra hc
        exact hnew ((odGet_eq_none_iff _ _).mpr hc)
      obtain ⟨r0, hr0⟩ := Option.ne_none_iff_exists'.mp hnew
      have hmem0 : ((rowDocNumber row : String), r0) ∈ st.bucket := mem_of_odGet_eq_some hr0
      rw [processRow_accepted_old slug mp mdd st row r0 hacc hr0]
      have hreck0 : odKeys r0 = recKeys mp := hreck _ hmem0
      have hkeys1 : odKeys (updateRec r0 (rowBookPage row) (rowDocDateRaw row)
          (rowRecordedDateRaw row) (rowDocType row) (rowAssocDoc row) (rowLegalSummary row)
          (rowPages row)) = odKeys r0 :=
        odKeys_updateRec _ _ _ _ _ _ _ _
          (by rw [hreck0]; exact tailKey_mem_recKeys mp _ (by simp [fixedTailKeys]))
          (by rw [hreck0]; exact tailKey_mem_recKeys mp _ (by simp [fixedTailKeys]))
          (by rw [hreck0]; exact tailKey_mem_recKeys mp _ (by simp [fixedTailKeys]))
          (by rw [hreck0]; exact tailKey_mem_recKeys mp _ (by simp [fixedTailKeys]))
          (by rw [hreck0]; exact tailKey_mem_recKeys mp _ (by simp [fixedTailKeys]))
          (by rw [hreck0]; exact tailKey_mem_recKeys mp _ (by simp [fixedTailKeys]))
          (by rw [hreck0]; exact tailKey_mem_recKeys mp _ (by simp [fixedTailKeys]))
      have hmapform := odSet_eq_map_of_nodup st.bucket (rowDocNumber row)
        (updateRec r0 (rowBookPage row) (rowDocDateRaw row) (rowRecordedDateRaw row)
          (rowDocType row) (rowAssocDoc row) (rowLegalSummary row) (rowPages row)) hbnd hmem2
      have hval : ∀ p ∈ st.bucket, p.1 = rowDocNumber row → p.2 = r0 := by
        intro p hp hpk
        have := odGet_eq_some_of_mem hbnd (show (p.1, p.2) ∈ st.bucket from hp)
        rw [hpk, hr0] at this
        exact (Option.some.injEq _ _).mp this.symm
      have hdnds : rowDocNumber row ∈ (rows.filter (rowAccepted mdd)).map rowDocNumber :=
        (mem_firstOccur _ _).mp (by rw [← hkeys]; exact hmem2)
      unfold AggInv
      refine ⟨?_, ?_, ?_, ?_, ?_, ?_, hpdpstep, hpndstep⟩
      · rw [odKeys_odSet_of_mem _ _ _ hmem2, hkeys, hfilter, List.map_append,
          show List.map rowDocNumber [row] = [rowDocNumber row] from rfl,
          firstOccur_snoc, if_pos hdnds]
      · rw [hmapform, List.length_map]
        exact hcount
      · rw [hmapform, List.map_map, List.length_map]
        rw [show (st.bucket.map (fun p => odGetD p.2 "id" Val.vNone))
            = st.bucket.map ((fun p : String × Rec => odGetD p.2 "id" Val.vNone) ∘
              (fun p => if p.1 = rowDocNumber row
                then (rowDocNumber row, updateRec r0 (rowBookPage row) (rowDocDateRaw row)
                  (rowRecordedDateRaw row) (rowDocType row) (rowAssocDoc row)
                  (rowLegalSummary row) (rowPages row))
                else p)) from ?_] at hids
        · exact hids
        · refine (List.map_congr_left ?_).symm
          intro p hp
          by_cases hpk : p.1 = rowDocNumber row
          · simp only [Function.comp, if_pos hpk]
            rw [odGetD_updateRec_other _ _ _ _ _ _ _ _ _ (by decide) (by decide) (by decide)
              (by decide) (by decide) (by decide) (by decide), ← hval p hp hpk]
          · simp only [Function.comp, if_neg hpk]
      · intro p hp
        rw [hmapform] at hp
        obtain ⟨q, hq, hqe⟩ := List.mem_map.mp hp
        by_cases hqk : q.1 = rowDocNumber row
        · rw [← hqe, if_pos hqk]
          rw [odGetD_updateRec_other _ _ _ _ _ _ _ _ _ (by decide) (by decide) (by decide)
            (by decide) (by decide) (by decide) (by decide), ← hval q hq hqk]
          rw [← hqk]
          exact hdoc q hq
        · rw [← hqe, if_neg hqk]
          exact hdoc q hq
      · intro p hp
        rw [hmapform] at hp
        obtain ⟨q, hq, hqe⟩ := List.mem_map.mp hp
        by_cases hqk : q.1 = rowDocNumber row
        · rw [← hqe, if_pos hqk]
          show odKeys (updateRec r0 (rowBookPage row) (rowDocDateRaw row)
            (rowRecordedDateRaw row) (rowDocType row) (rowAssocDoc row) (rowLegalSummary row)
            (rowPages row)) = recKeys mp
          rw [hkeys1, hreck0]
        · rw [← hqe, if_neg hqk]
          exact hreck q hq
      · intro p hp i hi1 hi2
        rw [hmapform] at hp
        obtain ⟨q, hq, hqe⟩ := List.mem_map.mp hp
        by_cases hqk : q.1 = rowDocNumber row
        · rw [← hqe, if_pos hqk]
          show odGetD (updateRec r0 (rowBookPage row) (rowDocDateRaw row)
            (rowRecordedDateRaw row) (rowDocType row) (rowAssocDoc row) (rowLegalSummary row)
            (rowPages row)) (partyKey i) Val.vNone = Val.vStr ""
          rw [odGetD_updateRec_other _ _ _ _ _ _ _ _ _
            (partyKey_ne i _ (by decide)) (partyKey_ne i _ (by decide))
            (partyKey_ne i _ (by decide)) (partyKey_ne i _ (by decide))
            (partyKey_ne i _ (by decide)) (partyKey_ne i _ (by decide))
            (partyKey_ne i _ (by decide))]
          rw [show r0 = ((rowDocNumber row : String), r0).2 from rfl]
          exact hparty _ hmem0 i hi1 hi2
        · rw [← hqe, if_neg hqk]
          exact hparty q hq i hi1 hi2

theorem aggInv_foldl (slug : String) (mp : Nat) (mdd : Option Int) :
    ∀ (rows : List Row) (pre : List Row) (st : AggSt), AggInv slug mp mdd pre st →
    AggInv slug mp mdd (pre ++ rows) (rows.foldl (processRow slug mp mdd) st) := by
  intro rows
  induction rows with
  | nil =>
    intro pre st h
    simpa using h
  | cons row rest ih =>
    intro pre st h
    rw [List.foldl_cons]
    have h2 := ih (pre ++ [row]) _ (aggInv_step slug mp mdd pre st row h)
    rw [List.append_assoc] at h2
    simpa using h2

theorem aggInv_init (slug : String) (mp : Nat) (mdd : Option Int) :
    AggInv slug mp mdd [] ⟨[], [], 0⟩ := by
  unfold AggInv
  refine ⟨rfl, rfl, rfl, ?_, ?_, ?_, ?_, ?_⟩
  · intro p hp
    simp at hp
  · intro p hp
    simp at hp
  · intro p hp
    simp at hp
  · intro k
    rfl
  · simp

theorem aggInv_rows (slug : String) (mp : Nat) (mdd : Option Int) (rows : List Row) :
    AggInv slug mp mdd rows (rows.foldl (processRow slug mp mdd) ⟨[], [], 0⟩) := by
  have := aggInv_foldl slug mp mdd rows [] ⟨[], [], 0⟩ (aggInv_init slug mp mdd)
  simpa using this

/-! ## Finalization -/

theorem writeParties_nil (mp : Nat) (r : Rec) : writeParties mp r [] = r := by
  rw [writeParties, List.take_nil]
  rfl

theorem odSet_ne_nil {K V : Type} [DecidableEq K] (l : List (K × V)) (k : K) (v : V) :
    odSet l k v ≠ [] := by
  cases l with
  | nil => simp [odSet]
  | cons p rest =>
    obtain ⟨k0, v0⟩ := p
    rw [odSet]
    split <;> simp

theorem writePartyList_ne_nil (l : List (Nat × String)) : ∀ (r : Rec), r ≠ [] →
    writePartyList r l ≠ [] := by
  induction l with
  | nil =>
    intro r h
    exact h
  | cons ip rest ih =>
    intro r h
    rw [writePartyList_cons]
    exact ih _ (odSet_ne_nil _ _ _)

theorem writeParties_isEmpty_false (mp : Nat) (r : Rec) (ps : List String)
    (h : r.isEmpty = false) : (writeParties mp r ps).isEmpty = false := by
  have h1 : r ≠ [] := by
    intro he
    rw [he] at h
    simp at h
  have h2 : writeParties mp r ps ≠ [] := by
    rw [writeParties]
    exact writePartyList_ne_nil _ r h1
  cases hx : (writeParties mp r ps).isEmpty
  · rfl
  · exact absurd (List.isEmpty_iff.mp hx) h2

theorem finalizeParties_cons (mp : Nat) (k1 : String) (ps1 : List String)
    (rest : List (String × List String)) (b : List (String × Rec)) :
    finalizeParties mp ((k1, ps1) :: rest) b = finalizeParties mp rest
      (match odGet b k1 with
       | none => b
       | some r => if r.isEmpty then b else odSet b k1 (writeParties mp r ps1)) := rfl

theorem finalizeParties_cons_none (mp : Nat) (k1 : String) (ps1 : List String)
    (rest : List (String × List String)) (b : List (String × Rec))
    (hb : odGet b k1 = none) :
    finalizeParties mp ((k1, ps1) :: rest) b = finalizeParties mp rest b := by
  rw [finalizeParties_cons, hb]

theorem finalizeParties_cons_some (mp : Nat) (k1 : String) (ps1 : List String)
    (rest : List (String × List String)) (b : List (String × Rec)) (r : Rec)
    (hb : odGet b k1 = some r) :
    finalizeParties mp ((k1, ps1) :: rest) b = finalizeParties mp rest
      (if r.isEmpty then b else odSet b k1 (writeParties mp r ps1)) := by
  rw [finalizeParties_cons, hb]

theorem finalizeParties_eq_map (mp : Nat) : ∀ (pdp : List (String × List String))
    (b : List (String × Rec)), (odKeys pdp).Nodup → (odKeys b).Nodup →
    finalizeParties mp pdp b = b.map (fun p =>
      if p.2.isEmpty then p else (p.1, writeParties mp p.2 (odGetD pdp p.1 []))) := by
  intro pdp
  induction pdp with
  | nil =>
    intro b _ _
    rw [show finalizeParties mp [] b = b from rfl]
    conv_lhs => rw [← List.map_id b]
    refine List.map_congr_left ?_
    intro p _
    by_cases hp2 : p.2.isEmpty = true
    · rw [if_pos hp2]
      rfl
    · rw [if_neg hp2]
      rw [show odGetD ([] : List (String × List String)) p.1 [] = [] from rfl,
        writeParties_nil]
      rfl
  | cons kp rest ih =>
    intro b hnp hnb
    obtain ⟨k1, ps1⟩ := kp
    have hnp1 := List.nodup_cons.mp (show (k1 :: odKeys rest).Nodup from hnp)
    cases hb : odGet b k1 with
    | none =>
      have hnotb : k1 ∉ odKeys b := (odGet_eq_none_iff _ _).mp hb
      rw [finalizeParties_cons_none mp k1 ps1 rest b hb, ih b hnp1.2 hnb]
      refine List.map_congr_left ?_
      intro p hp
      have hpne : ¬k1 = p.1 := fun he =>
        hnotb (he ▸ List.mem_map_of_mem Prod.fst hp)
      rw [show odGetD ((k1, ps1) :: rest) p.1 [] = odGetD rest p.1 [] from by
        rw [odGetD, odGet, if_neg hpne, odGetD]]
    | some r =>
      have hkb : k1 ∈ odKeys b := by
        by_contra hc
        rw [(odGet_eq_none_iff _ _).mpr hc] at hb
        simp at hb
      by_cases hre : r.isEmpty = true
      · rw [finalizeParties_cons_some mp k1 ps1 rest b r hb, if_pos hre, ih b hnp1.2 hnb]
        refine List.map_congr_left ?_
        intro p hp
        by_cases hpk : p.1 = k1
        · have hpr : p.2 = r := by
            have h1 := odGet_eq_some_of_mem hnb (show (p.1, p.2) ∈ b from hp)
            rw [hpk, hb] at h1
            exact (Option.some.injEq _ _).mp h1.symm
          have hp2 : p.2.isEmpty = true := by rw [hpr]; exact hre
          rw [if_pos hp2, if_pos hp2]
        · rw [show odGetD ((k1, ps1) :: rest) p.1 [] = odGetD rest p.1 [] from by
            rw [odGetD, odGet, if_neg (fun he => hpk he.symm), odGetD]]
      · rw [finalizeParties_cons_some mp k1 ps1 rest b r hb, if_neg hre]
        have hnb' : (odKeys (odSet b k1 (writeParties mp r ps1))).Nodup :=
          odKeys_nodup_odSet _ _ _ hnb
        rw [ih _ hnp1.2 hnb', odSet_eq_map_of_nodup b k1 _ hnb hkb, List.map_map]
        refine List.map_congr_left ?_
        intro p hp
        by_cases hpk : p.1 = k1
        · have hpr : p.2 = r := by
            have h1 := odGet_eq_some_of_mem hnb (show (p.1, p.2) ∈ b from hp)
            rw [hpk, hb] at h1
            exact (Option.some.injEq _ _).mp h1.symm
          have hp2 : p.2.isEmpty = false := by
            rw [hpr]
            exact Bool.eq_false_iff.mpr hre
          simp only [Function.comp_apply, if_pos hpk]
          rw [show ((k1, writeParties mp r ps1) : String × Rec).2.isEmpty
              = (writeParties mp r ps1).isEmpty from rfl,
            writeParties_isEmpty_false mp r ps1 (by rw [← hpr]; exact hp2)]
          rw [if_neg (by simp), if_neg (by rw [hp2]; simp)]
          rw [show odGetD rest ((k1, writeParties mp r ps1) : String × Rec).1 []
              = odGetD rest k1 [] from rfl]
          rw [show odGetD rest k1 [] = [] from by
            rw [odGetD, (odGet_eq_none_iff _ _).mpr hnp1.1]
            rfl]
          rw [writeParties_nil]
          rw [show odGetD ((k1, ps1) :: rest) p.1 [] = ps1 from by
            rw [odGetD, odGet, if_pos hpk.symm]
            rfl]
          rw [hpk, hpr]
        · simp only [Function.comp_apply, if_neg hpk]
          rw [show odGetD ((k1, ps1) :: rest) p.1 [] = odGetD rest p.1 [] from by
            rw [odGetD, odGet, if_neg (fun he => hpk he.symm), odGetD]]

/-! ## The shape of a full aggregation pass -/

theorem recKeys_ne_nil (mp : Nat) (r : Rec) (h : odKeys r = recKeys mp) :
    r.isEmpty = false := by
  cases hx : r.isEmpty
  · rfl
  · exfalso
    rw [List.isEmpty_iff.mp hx, recKeys] at h
    simp [odKeys] at h

theorem rows_to_records_char (rows : List Row) (slug : String) (mp : Nat)
    (daysBack nowOrd : Int) :
    rows_to_records rows slug mp daysBack nowOrd
      = (rows.foldl (processRow slug mp (minDocDateOf daysBack nowOrd)) ⟨[], [], 0⟩).bucket.map
        (fun p => writeParties mp p.2
          (specPartyList (minDocDateOf daysBack nowOrd) rows p.1)) := by
  obtain ⟨hkeys, hcount, hids, hdoc, hreck, hparty, hpdp, hpnd⟩ :=
    aggInv_rows slug mp (minDocDateOf daysBack nowOrd) rows
  have hbnd : (odKeys (rows.foldl (processRow slug mp (minDocDateOf daysBack nowOrd))
      ⟨[], [], 0⟩).bucket).Nodup := by
    rw [hkeys]
    exact firstOccur_nodup _
  rw [rows_to_records]
  rw [finalizeParties_eq_map mp _ _ hpnd hbnd, List.map_map]
  refine List.map_congr_left ?_
  intro p hp
  simp only [Function.comp_apply]
  rw [if_neg (by rw [recKeys_ne_nil mp p.2 (hreck p hp)]; simp), hpdp p.1]

theorem rows_to_records_docNumbers (rows : List Row) (slug : String) (mp : Nat)
    (daysBack nowOrd : Int) :
    (rows_to_records rows slug mp daysBack nowOrd).map
        (fun r => odGetD r "Doc Number" Val.vNone)
      = (firstOccur ((rows.filter (rowAccepted (minDocDateOf daysBack nowOrd))).map
          rowDocNumber)).map Val.vStr := by
  obtain ⟨hkeys, hcount, hids, hdoc, hreck, hparty, hpdp, hpnd⟩ :=
    aggInv_rows slug mp (minDocDateOf daysBack nowOrd) rows
  rw [rows_to_records_char, List.map_map, ← hkeys]
  rw [show odKeys (rows.foldl (processRow slug mp (minDocDateOf daysBack nowOrd))
      ⟨[], [], 0⟩).bucket
    = (rows.foldl (processRow slug mp (minDocDateOf daysBack nowOrd)) ⟨[], [], 0⟩).bucket.map
      Prod.fst from rfl, List.map_map]
  refine List.map_congr_left ?_
  intro p hp
  simp only [Function.comp_apply]
  rw [odGetD_writeParties_ne _ _ _ _ (by decide), hdoc p hp]

theorem rows_to_records_ids (rows : List Row) (slug : String) (mp : Nat)
    (daysBack nowOrd : Int) :
    (rows_to_records rows slug mp daysBack nowOrd).map (fun r => odGetD r "id" Val.vNone)
      = (List.range (rows_to_records rows slug mp daysBack nowOrd).length).map
          (fun i => Val.vStr (slug ++ "-" ++ Nat.repr (i + 1))) := by
  obtain ⟨hkeys, hcount, hids, hdoc, hreck, hparty, hpdp, hpnd⟩ :=
    aggInv_rows slug mp (minDocDateOf daysBack nowOrd) rows
  rw [rows_to_records_char, List.map_map, List.length_map]
  rw [← hids]
  refine List.map_congr_left ?_
  intro p hp
  simp only [Function.comp_apply]
  rw [odGetD_writeParties_ne _ _ _ _ (by decide)]

theorem rows_to_records_mem_char (rows : List Row) (slug : String) (mp : Nat)
    (daysBack nowOrd : Int) (r : Rec)
    (hr : r ∈ rows_to_records rows slug mp daysBack nowOrd) :
    ∃ k : String, odGetD r "Doc Number" Val.vNone = Val.vStr k
      ∧ odKeys r = recKeys mp
      ∧ (∀ i, 1 ≤ i → i ≤ mp → odGetD r (partyKey i) Val.vNone
          = Val.vStr (((specPartyList (minDocDateOf daysBack nowOrd) rows k).take mp).getD
              (i - 1) "")) := by
  obtain ⟨hkeys, hcount, hids, hdoc, hreck, hparty, hpdp, hpnd⟩ :=
    aggInv_rows slug mp (minDocDateOf daysBack nowOrd) rows
  rw [rows_to_records_char] at hr
  obtain ⟨p, hp, hpe⟩ := List.mem_map.mp hr
  refine ⟨p.1, ?_, ?_, ?_⟩
  · rw [← hpe, odGetD_writeParties_ne _ _ _ _ (by decide), hdoc p hp]
  · rw [← hpe, odKeys_writeParties mp p.2 _ (hreck p hp), hreck p hp]
  · intro i hi1 hi2
    rw [← hpe, odGetD_writeParties_party mp p.2 _ i hi1]
    by_cases hc : i ≤ ((specPartyList (minDocDateOf daysBack nowOrd) rows p.1).take mp).length
    · rw [if_pos hc]
    · rw [if_neg hc, hparty p hp i hi1 hi2,
        List.getD_eq_default _ _ (by omega)]

theorem partyKey_not_mem_recKeys (mp j : Nat) (hj : mp < j) : partyKey j ∉ recKeys mp := by
  intro hm
  rw [recKeys] at hm
  rcases List.mem_append.mp hm with hm | hm
  · rcases List.mem_append.mp hm with hm | hm
    · rcases List.mem_cons.mp hm with hm1 | hm1
      · exact partyKey_ne j "id" (by decide) hm1
      · rcases List.mem_cons.mp hm1 with hm2 | hm2
        · exact partyKey_ne j "Doc Number" (by decide) hm2
        · simp at hm2
    · obtain ⟨i, hi, hie⟩ := List.mem_map.mp hm
      rw [List.mem_range] at hi
      have := partyKey_injective hie
      omega
  · rw [fixedTailKeys] at hm
    rcases List.mem_cons.mp hm with h1 | hm
    · exact partyKey_ne j _ (by decide) h1
    · rcases List.mem_cons.mp hm with h1 | hm
      · exact partyKey_ne j _ (by decide) h1
      · rcases List.mem_cons.mp hm with h1 | hm
        · exact partyKey_ne j _ (by decide) h1
        · rcases List.mem_cons.mp hm with h1 | hm
          · exact partyKey_ne j _ (by decide) h1
          · rcases List.mem_cons.mp hm with h1 | hm
            · exact partyKey_ne j _ (by decide) h1
            · rcases List.mem_cons.mp hm with h1 | hm
              · exact partyKey_ne j _ (by decide) h1
              · rcases List.mem_cons.mp hm with h1 | hm
                · exact partyKey_ne j _ (by decide) h1
                · rcases List.mem_cons.mp hm with h1 | hm
                  · exact partyKey_ne j _ (by decide) h1
                  · simp at hm

/-! ## The rescrape merge -/

theorem foldl_odSet_char : ∀ (ms : List Rec) (acc : List (Val × Rec)),
    (odKeys acc).Nodup → (ms.map docNumOf).Nodup →
    ms.foldl (fun a r => odSet a (docNumOf r) r) acc
      = acc.map (fun p =>
          (p.1, ((ms.find? (fun r2 => decide (docNumOf r2 = p.1))).getD p.2)))
        ++ (ms.filter (fun r2 => decide (docNumOf r2 ∉ odKeys acc))).map
            (fun r2 => (docNumOf r2, r2)) := by
  intro ms
  induction ms with
  | nil =>
    intro acc _ _
    rw [List.foldl_nil]
    rw [show List.filter (fun r2 => decide (docNumOf r2 ∉ odKeys acc)) [] = [] from rfl]
    rw [List.map_nil, List.append_nil]
    conv_lhs => rw [← List.map_id acc]
    refine List.map_congr_left ?_
    intro p _
    rfl
  | cons m rest ih =>
    intro acc hna hnm
    have hnm1 := List.nodup_cons.mp (show (docNumOf m :: rest.map docNumOf).Nodup from hnm)
    rw [List.foldl_cons]
    have hfind_rest_k0 : rest.find? (fun r2 => decide (docNumOf r2 = docNumOf m)) = none := by
      rw [List.find?_eq_none]
      intro r2 hr2
      simp only [decide_eq_true_eq]
      intro he
      exact hnm1.1 (he ▸ List.mem_map_of_mem docNumOf hr2)
    have hfind_cons_ne : ∀ k : Val, k ≠ docNumOf m →
        (m :: rest).find? (fun r2 => decide (docNumOf r2 = k))
          = rest.find? (fun r2 => decide (docNumOf r2 = k)) := by
      intro k hke
      rw [List.find?_cons_of_neg]
      simp only [decide_eq_true_eq]
      exact fun he => hke he.symm
    by_cases hk : docNumOf m ∈ odKeys acc
    · have hset := odSet_eq_map_of_nodup acc (docNumOf m) m hna hk
      have hkeq : odKeys (odSet acc (docNumOf m) m) = odKeys acc :=
        odKeys_odSet_of_mem _ _ _ hk
      rw [ih (odSet acc (docNumOf m) m) (by rw [hkeq]; exact hna) hnm1.2]
      congr 1
      · rw [hset, List.map_map]
        refine List.map_congr_left ?_
        intro p hp
        by_cases hpk : p.1 = docNumOf m
        · simp only [Function.comp_apply, if_pos hpk]
          rw [show ((m :: rest).find? (fun r2 => decide (docNumOf r2 = p.1)))
              = some m from by
            rw [List.find?_cons_of_pos]
            simp [hpk]]
          simp only [hfind_rest_k0, Option.getD_none, Option.getD_some]
          rw [hpk]
        · simp only [Function.comp_apply, if_neg hpk]
          rw [hfind_cons_ne p.1 hpk]
      · rw [show List.filter (fun r2 => decide (docNumOf r2 ∉ odKeys acc)) (m :: rest)
            = List.filter (fun r2 => decide (docNumOf r2 ∉ odKeys acc)) rest from by
          rw [List.filter_cons_of_neg]
          simp [hk]]
        refine congrArg (List.map _) ?_
        refine List.filter_congr ?_
        intro r2 _
        rw [hkeq]
    · have hset := odSet_of_not_mem acc (docNumOf m) m hk
      have hkeq : odKeys (odSet acc (docNumOf m) m) = odKeys acc ++ [docNumOf m] := by
        rw [hset, odKeys_append]
        rfl
      rw [ih (odSet acc (docNumOf m) m)
        (by
          rw [hkeq]
          simp [List.nodup_append, hna]
          intro a
          exact hk a) hnm1.2]
      have e4 : List.filter
            (fun r2 => decide (docNumOf r2 ∉ odKeys (odSet acc (docNumOf m) m))) rest
          = List.filter (fun r2 => decide (docNumOf r2 ∉ odKeys acc)) rest := by
        refine List.filter_congr ?_
        intro r2 hr2
        rw [hkeq]
        simp only [decide_eq_decide, List.mem_append, List.mem_singleton]
        constructor
        · intro h hc
          exact h (Or.inl hc)
        · intro h hc
          rcases hc with hc | hc
          · exact h hc
          · exact hnm1.1 (hc ▸ List.mem_map_of_mem docNumOf hr2)
      rw [e4, hset, List.map_append]
      have e1 : List.map (fun p : Val × Rec =>
            (p.1, ((rest.find? (fun r2 => decide (docNumOf r2 = p.1))).getD p.2)))
            [((docNumOf m : Val), m)]
          = [((docNumOf m : Val), m)] := by
        simp only [List.map_cons, List.map_nil, hfind_rest_k0, Option.getD_none]
      have e2 : List.map (fun p : Val × Rec =>
            (p.1, ((rest.find? (fun r2 => decide (docNumOf r2 = p.1))).getD p.2))) acc
          = List.map (fun p : Val × Rec =>
            (p.1, (((m :: rest).find? (fun r2 => decide (docNumOf r2 = p.1))).getD p.2))) acc := by
        refine List.map_congr_left ?_
        intro p hp
        have hpk : p.1 ≠ docNumOf m := by
          intro he
          exact hk (he ▸ List.mem_map_of_mem Prod.fst hp)
        rw [hfind_cons_ne p.1 hpk]
      have e3 : List.filter (fun r2 => decide (docNumOf r2 ∉ odKeys acc)) (m :: rest)
          = m :: List.filter (fun r2 => decide (docNumOf r2 ∉ odKeys acc)) rest := by
        rw [List.filter_cons_of_pos]
        simp [hk]
      rw [e1, e2, e3, List.map_cons, List.append_assoc]
      rfl

theorem mergeRescrape_char (records more : List Rec)
    (h1 : (records.map docNumOf).Nodup) (h2 : (more.map docNumOf).Nodup) :
    mergeRescrape records more
      = records.map (fun r =>
          (more.find? (fun r2 => decide (docNumOf r2 = docNumOf r))).getD r)
        ++ more.filter (fun r2 => decide (docNumOf r2 ∉ records.map docNumOf)) := by
  rw [mergeRescrape]
  have hbase : records.foldl (fun acc r => odSet acc (docNumOf r) r) []
      = records.map (fun r => (docNumOf r, r)) := by
    rw [foldl_odSet_char records [] (by simp [odKeys]) h1]
    rw [List.map_nil, List.nil_append]
    rw [show List.filter (fun r2 => decide (docNumOf r2 ∉ odKeys ([] : List (Val × Rec))))
        records = records from by
      refine List.filter_eq_self.mpr ?_
      intro r _
      simp [odKeys]]
  rw [hbase]
  have hkeysbase : odKeys (records.map (fun r => (docNumOf r, r))) = records.map docNumOf := by
    rw [odKeys, List.map_map]
    rfl
  rw [foldl_odSet_char more _ (by rw [hkeysbase]; exact h1) h2]
  rw [List.map_append, List.map_map]
  congr 1
  · rw [List.map_map]
    refine List.map_congr_left ?_
    intro r _
    simp only [Function.comp_apply]
  · rw [List.map_map]
    rw [show List.filter (fun r2 => decide (docNumOf r2 ∉
        odKeys (records.map (fun r => (docNumOf r, r))))) more
      = List.filter (fun r2 => decide (docNumOf r2 ∉ records.map docNumOf)) more from by
      refine List.filter_congr ?_
      intro r2 _
      rw [hkeysbase]]
    conv_rhs => rw [← List.map_id (List.filter
      (fun r2 => decide (docNumOf r2 ∉ records.map docNumOf)) more)]
    refine List.map_congr_left ?_
    intro r2 _
    rfl


theorem mem_foldl_odSet : ∀ (ms : List Rec) (acc : List (Val × Rec)) (p : Val × Rec),
    p ∈ ms.foldl (fun a r => odSet a (docNumOf r) r) acc → p ∈ acc ∨ p.2 ∈ ms := by
  intro ms
  induction ms with
  | nil =>
    intro acc p h
    exact Or.inl h
  | cons m rest ih =>
    intro acc p h
    rw [List.foldl_cons] at h
    rcases ih _ p h with h1 | h1
    · rcases mem_of_mem_odSet h1 with h2 | h2
      · right
        rw [h2]
        exact List.mem_cons_self _ _
      · exact Or.inl h2
    · right
      exact List.mem_cons_of_mem _ h1

theorem mergeRescrape_mem (records more : List Rec) (r : Rec)
    (h : r ∈ mergeRescrape records more) : r ∈ records ∨ r ∈ more := by
  rw [mergeRescrape] at h
  obtain ⟨p, hp, hpe⟩ := List.mem_map.mp h
  rcases mem_foldl_odSet more _ p hp with h1 | h1
  · rcases mem_foldl_odSet records [] p h1 with h2 | h2
    · simp at h2
    · left
      rw [← hpe]
      exact h2
  · right
    rw [← hpe]
    exact h1

/-! ## The CSV export -/

theorem odKeys_odSet_foStep {K V : Type} [DecidableEq K] (l : List (K × V)) (k : K) (v : V) :
    odKeys (odSet l k v) = if k ∈ odKeys l then odKeys l else odKeys l ++ [k] := by
  by_cases hk : k ∈ odKeys l
  · rw [if_pos hk, odKeys_odSet_of_mem _ _ _ hk]
  · rw [if_neg hk, odSet_of_not_mem _ _ _ hk, odKeys_append]
    rfl

theorem odKeys_foldl_headers (r : Rec) : ∀ (hs : List (String × Bool)),
    odKeys (r.foldl (fun hs2 kv => odSet hs2 kv.1 true) hs)
      = (r.map Prod.fst).foldl (fun acc k => if k ∈ acc then acc else acc ++ [k]) (odKeys hs) := by
  induction r with
  | nil =>
    intro hs
    rfl
  | cons kv rest ih =>
    intro hs
    rw [List.foldl_cons, List.map_cons, List.foldl_cons, ih, odKeys_odSet_foStep]

theorem odKeys_foldl_headers_all : ∀ (records : List Rec) (hs : List (String × Bool)),
    odKeys (records.foldl (fun hs r => r.foldl (fun hs2 kv => odSet hs2 kv.1 true) hs) hs)
      = ((records.map (fun r => r.map Prod.fst)).flatten).foldl
          (fun acc k => if k ∈ acc then acc else acc ++ [k]) (odKeys hs) := by
  intro records
  induction records with
  | nil =>
    intro hs
    rfl
  | cons r rest ih =>
    intro hs
    rw [List.foldl_cons, List.map_cons, List.flatten_cons, List.foldl_append, ih,
      odKeys_foldl_headers]

theorem csvHeaders_eq_firstOccur (records : List Rec) :
    csvHeaders records = firstOccur ((records.map (fun r => r.map Prod.fst)).flatten) := by
  rw [csvHeaders, firstOccur, odKeys_foldl_headers_all]
  rfl

theorem renderCsvCell_missing (r : Rec) (k : String) (h : k ∉ odKeys r) :
    renderCsvCell r k = "" := by
  rw [renderCsvCell, (odGet_eq_none_iff r k).mpr h]

/-! ## Per-key lookups in a fresh record, and the date filter -/

theorem odGetD_mkRecord_bookPage (slug : String) (n mp : Nat) (dn : String) (bp : Val)
    (dd rd dt ad ls co pg : String) :
    odGetD (mkRecord slug n mp dn bp dd rd dt ad ls co pg) "Book & Page" Val.vNone = bp := by
  rw [odGetD_mkRecord_skip _ _ _ _ _ _ _ _ _ _ _ _ _ (by decide) (by decide) (by decide)]
  simp [odGetD, odGet]

theorem odGetD_mkRecord_pages (slug : String) (n mp : Nat) (dn : String) (bp : Val)
    (dd rd dt ad ls co pg : String) :
    odGetD (mkRecord slug n mp dn bp dd rd dt ad ls co pg) "Pages" Val.vNone
      = coercePages pg := by
  rw [odGetD_mkRecord_skip _ _ _ _ _ _ _ _ _ _ _ _ _ (by decide) (by decide) (by decide)]
  simp [odGetD, odGet]

theorem odGetD_mkRecord_consideration (slug : String) (n mp : Nat) (dn : String) (bp : Val)
    (dd rd dt ad ls co pg : String) :
    odGetD (mkRecord slug n mp dn bp dd rd dt ad ls co pg) "Consideration" Val.vNone
      = Val.vStr co := by
  rw [odGetD_mkRecord_skip _ _ _ _ _ _ _ _ _ _ _ _ _ (by decide) (by decide) (by decide)]
  simp [odGetD, odGet]

theorem minDocDateOf_nonpos (daysBack nowOrd : Int) (h : daysBack ≤ 0) :
    minDocDateOf daysBack nowOrd = none := by
  rw [minDocDateOf, if_neg (by omega)]

theorem minDocDateOf_pos (daysBack nowOrd : Int) (h : 0 < daysBack) :
    minDocDateOf daysBack nowOrd = some (nowOrd - daysBack) := by
  rw [minDocDateOf, if_pos h]

theorem filteredOut_none_mdd (dt : Option PyDateTime) : filteredOut none dt = false := by
  cases dt <;> rfl

theorem filteredOut_some_iff (m : Int) (dt : Option PyDateTime) :
    filteredOut (some m) dt = false ↔ dt = none ∨ ∃ d, dt = some d ∧ m ≤ (d.dateOrd : Int) := by
  cases dt with
  | none =>
    simp [filteredOut]
  | some d =>
    rw [show filteredOut (some m) (some d) = decide ((d.dateOrd : Int) < m) from rfl]
    simp only [decide_eq_false_iff_not, not_lt]
    constructor
    · intro h
      exact Or.inr ⟨d, rfl, h⟩
    · intro h
      rcases h with h | ⟨d2, hd2, hle⟩
      · exact absurd h (by simp)
      · rw [(Option.some.injEq _ _).mp hd2]
        exact hle

theorem processRow_filtered (slug : String) (mp : Nat) (mdd : Option Int) (st : AggSt)
    (row : Row) (hf : filteredOut mdd (parse_date_mmmd (rowDocDateRaw row)).1 = true) :
    processRow slug mp mdd st row = st := by
  rw [processRow]
  by_cases h1 : row.tds.length < 14
  · rw [if_pos h1]
  · rw [if_neg h1]
    by_cases h2 : rowDocNumber row = ""
    · rw [if_pos h2]
    · rw [if_neg h2, if_pos hf]

/-! ## The claims -/

/-- C2: for every input row sequence (and slug, party cap and cutoff), no two
records in one aggregation pass's output carry the same `Doc Number` field:
the output is keyed uniquely by doc number. -/
theorem claim_C2_uniqueness (rows : List Row) (slug : String) (mp : Nat)
    (daysBack nowOrd : Int) :
    ((rows_to_records rows slug mp daysBack nowOrd).map
      (fun r => odGetD r "Doc Number" Val.vNone)).Nodup := by
  rw [rows_to_records_docNumbers]
  refine List.Nodup.map ?_ (firstOccur_nodup _)
  intro a b h
  injection h

/-- C6: the records of one aggregation pass appear in order of first
appearance of their doc number among accepted rows, and the record at
(0-based) position `i` has id `"{slug}-{i+1}"`. -/
theorem claim_C6_order_and_ids (rows : List Row) (slug : String) (mp : Nat)
    (daysBack nowOrd : Int) :
    (rows_to_records rows slug mp daysBack nowOrd).map
        (fun r => odGetD r "Doc Number" Val.vNone)
      = (firstOccur ((rows.filter (rowAccepted (minDocDateOf daysBack nowOrd))).map
          rowDocNumber)).map Val.vStr
    ∧ (rows_to_records rows slug mp daysBack nowOrd).map (fun r => odGetD r "id" Val.vNone)
      = (List.range (rows_to_records rows slug mp daysBack nowOrd).length).map
          (fun i => Val.vStr (slug ++ "-" ++ Nat.repr (i + 1))) :=
  ⟨rows_to_records_docNumbers rows slug mp daysBack nowOrd,
   rows_to_records_ids rows slug mp daysBack nowOrd⟩

/-- C5: the rescrape merge keyed by `Doc Number` replaces, in place, every
base record whose doc number also occurs in the incoming collection with the
whole incoming record, keeps the remaining base records unchanged in their
original order, and appends the incoming-only records after them in incoming
order. -/
theorem claim_C5_merge (records more : List Rec)
    (h1 : (records.map docNumOf).Nodup) (h2 : (more.map docNumOf).Nodup) :
    mergeRescrape records more
      = records.map (fun r =>
          (more.find? (fun r2 => decide (docNumOf r2 = docNumOf r))).getD r)
        ++ more.filter (fun r2 => decide (docNumOf r2 ∉ records.map docNumOf)) :=
  mergeRescrape_char records more h1 h2

/-- C5 witness: the spec's example — base `{A: x=1, B: x=2}` merged with
incoming `{B: x=3, C: x=4}` gives `{A: x=1, B: x=3, C: x=4}`. -/
theorem claim_C5_merge_witness :
    (([[("Doc Number", Val.vStr "A"), ("x", Val.vInt 1)],
       [("Doc Number", Val.vStr "B"), ("x", Val.vInt 2)]] : List Rec).map docNumOf).Nodup
    ∧ (([[("Doc Number", Val.vStr "B"), ("x", Val.vInt 3)],
         [("Doc Number", Val.vStr "C"), ("x", Val.vInt 4)]] : List Rec).map docNumOf).Nodup
    ∧ mergeRescrape
        [[("Doc Number", Val.vStr "A"), ("x", Val.vInt 1)],
         [("Doc Number", Val.vStr "B"), ("x", Val.vInt 2)]]
        [[("Doc Number", Val.vStr "B"), ("x", Val.vInt 3)],
         [("Doc Number", Val.vStr "C"), ("x", Val.vInt 4)]]
      = ([[("Doc Number", Val.vStr "A"), ("x", Val.vInt 1)],
          [("Doc Number", Val.vStr "B"), ("x", Val.vInt 2)]] : List Rec).map (fun r =>
            (([[("Doc Number", Val.vStr "B"), ("x", Val.vInt 3)],
               [("Doc Number", Val.vStr "C"), ("x", Val.vInt 4)]] : List Rec).find?
              (fun r2 => decide (docNumOf r2 = docNumOf r))).getD r)
        ++ ([[("Doc Number", Val.vStr "B"), ("x", Val.vInt 3)],
             [("Doc Number", Val.vStr "C"), ("x", Val.vInt 4)]] : List Rec).filter
            (fun r2 => decide (docNumOf r2 ∉
              ([[("Doc Number", Val.vStr "A"), ("x", Val.vInt 1)],
                [("Doc Number", Val.vStr "B"), ("x", Val.vInt 2)]] : List Rec).map docNumOf)) :=
  ⟨by decide, by decide,
   claim_C5_merge
     [[("Doc Number", Val.vStr "A"), ("x", Val.vInt 1)],
      [("Doc Number", Val.vStr "B"), ("x", Val.vInt 2)]]
     [[("Doc Number", Val.vStr "B"), ("x", Val.vInt 3)],
      [("Doc Number", Val.vStr "C"), ("x", Val.vInt 4)]]
     (by decide) (by decide)⟩

/-- C10: the rescrape merge copies records unchanged — every record of the
merged output is one of the base or incoming records (ids included) — and
since ids restart at 1 each pass, merging two one-record passes yields two
records with the same id `"c-1"`. -/
theorem claim_C10_merge_copies_and_duplicate_ids :
    (∀ (base more : List Rec) (r : Rec), r ∈ mergeRescrape base more → r ∈ base ∨ r ∈ more)
    ∧ (mergeRescrape
        (rows_to_records [mkRow "A" "" "" "" "" "" "" "" "" "" ""] "c" 1 0 0)
        (rows_to_records [mkRow "B" "" "" "" "" "" "" "" "" "" ""] "c" 1 0 0)).map
          (fun r => odGetD r "id" Val.vNone)
      = [Val.vStr "c-1", Val.vStr "c-1"] := by
  constructor
  · intro base more r h
    exact mergeRescrape_mem base more r h
  · decide

/-- C10 witness: the membership part at a concrete merge. -/
theorem claim_C10_witness :
    ([("Doc Number", Val.vStr "A")] : Rec) ∈
        mergeRescrape [[("Doc Number", Val.vStr "A")]] [[("Doc Number", Val.vStr "B")]]
    ∧ (([("Doc Number", Val.vStr "A")] : Rec) ∈ ([[("Doc Number", Val.vStr "A")]] : List Rec)
       ∨ ([("Doc Number", Val.vStr "A")] : Rec) ∈ ([[("Doc Number", Val.vStr "B")]] : List Rec)) :=
  ⟨by decide,
   claim_C10_merge_copies_and_duplicate_ids.1
     [[("Doc Number", Val.vStr "A")]] [[("Doc Number", Val.vStr "B")]]
     [("Doc Number", Val.vStr "A")] (by decide)⟩

/-- C8: the CSV header row is the union of the keys of all records ordered by
first appearance scanning records in order; the data rows are the records in
order, rendered against that header; and a record missing a header column
yields the empty cell for it. -/
theorem claim_C8_csv (records : List Rec) :
    csvHeaders records = firstOccur ((records.map (fun r => r.map Prod.fst)).flatten)
    ∧ csvRows records = records.map (fun r => (csvHeaders records).map (renderCsvCell r))
    ∧ ∀ r ∈ records, ∀ k, k ∉ odKeys r → renderCsvCell r k = "" := by
  refine ⟨csvHeaders_eq_firstOccur records, rfl, ?_⟩
  intro r _ k hk
  exact renderCsvCell_missing r k hk

/-- C8 witness: the spec's example — records with key sets `{a, b}` and
`{b, c}` give header `[a, b, c]` and the first record's `c` cell is empty. -/
theorem claim_C8_csv_witness :
    csvHeaders [[("a", Val.vInt 1), ("b", Val.vInt 2)], [("b", Val.vInt 3), ("c", Val.vInt 4)]]
      = firstOccur ((([[("a", Val.vInt 1), ("b", Val.vInt 2)],
          [("b", Val.vInt 3), ("c", Val.vInt 4)]] : List Rec).map
            (fun r => r.map Prod.fst)).flatten)
    ∧ renderCsvCell [("a", Val.vInt 1), ("b", Val.vInt 2)] "c" = "" :=
  ⟨(claim_C8_csv [[("a", Val.vInt 1), ("b", Val.vInt 2)],
      [("b", Val.vInt 3), ("c", Val.vInt 4)]]).1,
   (claim_C8_csv [[("a", Val.vInt 1), ("b", Val.vInt 2)],
      [("b", Val.vInt 3), ("c", Val.vInt 4)]]).2.2
     [("a", Val.vInt 1), ("b", Val.vInt 2)] (by decide) "c" (by decide)⟩

/-- C1 counterexample: the claim as stated fails for `Consideration`.  A
first row for doc `D1` leaves `Consideration` empty and a repeat row
supplies the non-empty value `"$100"`, yet the output record's
`Consideration` stays `""`: the repeat-occurrence merge block of
`rows_to_records` has no line for `Consideration`. -/
theorem claim_C1_counterexample :
    rowConsideration (mkRow "D1" "" "" "" "" "" "" "" "$100" "" "") = "$100"
    ∧ (rows_to_records
        [mkRow "D1" "" "" "" "" "" "" "" "" "" "",
         mkRow "D1" "" "" "" "" "" "" "" "$100" "" ""] "c" 1 0 0).map
        (fun r => odGetD r "Consideration" Val.vNone) = [Val.vStr ""] :=
  ⟨by decide, by decide⟩

/-- C1 (amended): when a repeat row for an existing doc number is processed,
each of `Book & Page`, `Doc Date`, `Recorded Date`, `Doc Type`, `Assoc Doc`
and `Legal Summary` is overwritten exactly when the stored value is falsy and
the row supplies a non-empty value, and is kept otherwise — but
`Consideration` is NOT merged: it always keeps the value of the first
occurrence, even when it is empty and the repeat row is non-empty. -/
theorem claim_C1_field_merge (slug : String) (mp : Nat) (mdd : Option Int) (st : AggSt)
    (row : Row) (r0 : Rec) (hacc : rowAccepted mdd row = true)
    (hr0 : odGet st.bucket (rowDocNumber row) = some r0) :
    ∃ r1 : Rec,
      odGet (processRow slug mp mdd st row).bucket (rowDocNumber row) = some r1
      ∧ odGetD r1 "Book & Page" Val.vNone =
          (if (odGetD r0 "Book & Page" Val.vNone).falsy && !(rowBookPage row).falsy
           then rowBookPage row else odGetD r0 "Book & Page" Val.vNone)
      ∧ odGetD r1 "Doc Date" Val.vNone =
          (if (odGetD r0 "Doc Date" Val.vNone).falsy && rowDocDateRaw row != ""
           then Val.vStr (rowDocDateRaw row) else odGetD r0 "Doc Date" Val.vNone)
      ∧ odGetD r1 "Recorded Date" Val.vNone =
          (if (odGetD r0 "Recorded Date" Val.vNone).falsy && rowRecordedDateRaw row != ""
           then Val.vStr (rowRecordedDateRaw row) else odGetD r0 "Recorded Date" Val.vNone)
      ∧ odGetD r1 "Doc Type" Val.vNone =
          (if (odGetD r0 "Doc Type" Val.vNone).falsy && rowDocType row != ""
           then Val.vStr (rowDocType row) else odGetD r0 "Doc Type" Val.vNone)
      ∧ odGetD r1 "Assoc Doc" Val.vNone =
          (if (odGetD r0 "Assoc Doc" Val.vNone).falsy && rowAssocDoc row != ""
           then Val.vStr (rowAssocDoc row) else odGetD r0 "Assoc Doc" Val.vNone)
      ∧ odGetD r1 "Legal Summary" Val.vNone =
          (if (odGetD r0 "Legal Summary" Val.vNone).falsy && rowLegalSummary row != ""
           then Val.vStr (rowLegalSummary row) else odGetD r0 "Legal Summary" Val.vNone)
      ∧ odGetD r1 "Consideration" Val.vNone = odGetD r0 "Consideration" Val.vNone := by
  refine ⟨updateRec r0 (rowBookPage row) (rowDocDateRaw row) (rowRecordedDateRaw row)
    (rowDocType row) (rowAssocDoc row) (rowLegalSummary row) (rowPages row),
    ?_, odGetD_updateRec_bookPage _ _ _ _ _ _ _ _,
    odGetD_updateRec_docDate _ _ _ _ _ _ _ _,
    odGetD_updateRec_recordedDate _ _ _ _ _ _ _ _,
    odGetD_updateRec_docType _ _ _ _ _ _ _ _,
    odGetD_updateRec_assocDoc _ _ _ _ _ _ _ _,
    odGetD_updateRec_legalSummary _ _ _ _ _ _ _ _,
    odGetD_updateRec_other _ _ _ _ _ _ _ _ _ (by decide) (by decide) (by decide) (by decide)
      (by decide) (by decide) (by decide)⟩
  rw [processRow_accepted_old slug mp mdd st row r0 hacc hr0]
  exact odGet_odSet_self _ _ _

/-- C1 witness: the amended theorem applied at a stored record whose
`Doc Type` is empty and a repeat row supplying `"DEED"` and `"$100"`. -/
theorem claim_C1_field_merge_witness :
    rowAccepted none (mkRow "D1" "" "" "" "" "DEED" "" "" "$100" "" "") = true
    ∧ odGet (AggSt.mk [("D1", [("Doc Type", Val.vStr ""), ("Consideration", Val.vStr "")])] [] 1).bucket
        (rowDocNumber (mkRow "D1" "" "" "" "" "DEED" "" "" "$100" "" ""))
        = some [("Doc Type", Val.vStr ""), ("Consideration", Val.vStr "")]
    ∧ ∃ r1 : Rec,
      odGet (processRow "c" 1 none
          (AggSt.mk [("D1", [("Doc Type", Val.vStr ""), ("Consideration", Val.vStr "")])] [] 1)
          (mkRow "D1" "" "" "" "" "DEED" "" "" "$100" "" "")).bucket
        (rowDocNumber (mkRow "D1" "" "" "" "" "DEED" "" "" "$100" "" "")) = some r1
      ∧ odGetD r1 "Book & Page" Val.vNone =
          (if (odGetD [("Doc Type", Val.vStr ""), ("Consideration", Val.vStr "")]
                "Book & Page" Val.vNone).falsy
              && !(rowBookPage (mkRow "D1" "" "" "" "" "DEED" "" "" "$100" "" "")).falsy
           then rowBookPage (mkRow "D1" "" "" "" "" "DEED" "" "" "$100" "" "")
           else odGetD [("Doc Type", Val.vStr ""), ("Consideration", Val.vStr "")]
                "Book & Page" Val.vNone)
      ∧ odGetD r1 "Doc Date" Val.vNone =
          (if (odGetD [("Doc Type", Val.vStr ""), ("Consideration", Val.vStr "")]
                "Doc Date" Val.vNone).falsy
              && rowDocDateRaw (mkRow "D1" "" "" "" "" "DEED" "" "" "$100" "" "") != ""
           then Val.vStr (rowDocDateRaw (mkRow "D1" "" "" "" "" "DEED" "" "" "$100" "" ""))
           else odGetD [("Doc Type", Val.vStr ""), ("Consideration", Val.vStr "")]
                "Doc Date" Val.vNone)
      ∧ odGetD r1 "Recorded Date" Val.vNone =
          (if (odGetD [("Doc Type", Val.vStr ""), ("Consideration", Val.vStr "")]
                "Recorded Date" Val.vNone).falsy
              && rowRecordedDateRaw (mkRow "D1" "" "" "" "" "DEED" "" "" "$100" "" "") != ""
           then Val.vStr (rowRecordedDateRaw (mkRow "D1" "" "" "" "" "DEED" "" "" "$100" "" ""))
           else odGetD [("Doc Type", Val.vStr ""), ("Consideration", Val.vStr "")]
                "Recorded Date" Val.vNone)
      ∧ odGetD r1 "Doc Type" Val.vNone =
          (if (odGetD [("Doc Type", Val.vStr ""), ("Consideration", Val.vStr "")]
                "Doc Type" Val.vNone).falsy
              && rowDocType (mkRow "D1" "" "" "" "" "DEED" "" "" "$100" "" "") != ""
           then Val.vStr (rowDocType (mkRow "D1" "" "" "" "" "DEED" "" "" "$100" "" ""))
           else odGetD [("Doc Type", Val.vStr ""), ("Consideration", Val.vStr "")]
                "Doc Type" Val.vNone)
      ∧ odGetD r1 "Assoc Doc" Val.vNone =
          (if (odGetD [("Doc Type", Val.vStr ""), ("Consideration", Val.vStr "")]
                "Assoc Doc" Val.vNone).falsy
              && rowAssocDoc (mkRow "D1" "" "" "" "" "DEED" "" "" "$100" "" "") != ""
           then Val.vStr (rowAssocDoc (mkRow "D1" "" "" "" "" "DEED" "" "" "$100" "" ""))
           else odGetD [("Doc Type", Val.vStr ""), ("Consideration", Val.vStr "")]
                "Assoc Doc" Val.vNone)
      ∧ odGetD r1 "Legal Summary" Val.vNone =
          (if (odGetD [("Doc Type", Val.vStr ""), ("Consideration", Val.vStr "")]
                "Legal Summary" Val.vNone).falsy
              && rowLegalSummary (mkRow "D1" "" "" "" "" "DEED" "" "" "$100" "" "") != ""
           then Val.vStr (rowLegalSummary (mkRow "D1" "" "" "" "" "DEED" "" "" "$100" "" ""))
           else odGetD [("Doc Type", Val.vStr ""), ("Consideration", Val.vStr "")]
                "Legal Summary" Val.vNone)
      ∧ odGetD r1 "Consideration" Val.vNone =
          odGetD [("Doc Type", Val.vStr ""), ("Consideration", Val.vStr "")]
            "Consideration" Val.vNone :=
  ⟨by decide, by decide,
   claim_C1_field_merge "c" 1 none
     (AggSt.mk [("D1", [("Doc Type", Val.vStr ""), ("Consideration", Val.vStr "")])] [] 1)
     (mkRow "D1" "" "" "" "" "DEED" "" "" "$100" "" "")
     [("Doc Type", Val.vStr ""), ("Consideration", Val.vStr "")]
     (by decide) (by decide)⟩

/-- C3: the date filter.  With `daysBack ≤ 0` no row is ever filtered; with
`daysBack > 0` a row passes iff its doc date is unparseable or its ordinal is
at least `now - daysBack` (so a date exactly `daysBack` days old is
retained and one day older is excluded); and a filtered-out row leaves the
whole aggregation state unchanged — no record, no field merge, no party
accumulation. -/
theorem claim_C3_date_filter (daysBack nowOrd : Int) :
    (daysBack ≤ 0 → ∀ dt : Option PyDateTime,
      filteredOut (minDocDateOf daysBack nowOrd) dt = false)
    ∧ (0 < daysBack → ∀ dt : Option PyDateTime,
        (filteredOut (minDocDateOf daysBack nowOrd) dt = false
          ↔ dt = none ∨ ∃ d, dt = some d ∧ nowOrd - daysBack ≤ (d.dateOrd : Int)))
    ∧ (∀ (slug : String) (mp : Nat) (st : AggSt) (row : Row),
        filteredOut (minDocDateOf daysBack nowOrd)
            (parse_date_mmmd (rowDocDateRaw row)).1 = true →
          processRow slug mp (minDocDateOf daysBack nowOrd) st row = st) := by
  refine ⟨?_, ?_, ?_⟩
  · intro h dt
    rw [minDocDateOf_nonpos daysBack nowOrd h]
    exact filteredOut_none_mdd dt
  · intro h dt
    rw [minDocDateOf_pos daysBack nowOrd h]
    exact filteredOut_some_iff (nowOrd - daysBack) dt
  · intro slug mp st row hf
    exact processRow_filtered slug mp (minDocDateOf daysBack nowOrd) st row hf

/-- C3 witness: with `days_back = 2` and now = 2024-01-07, a doc date of
2024-01-05 passes the filter test and a row dated 2024-01-04 leaves the
state untouched. -/
theorem claim_C3_date_filter_witness :
    (0 < (2 : Int)
      ∧ ((filteredOut (minDocDateOf 2 ((dateOrdinal 2024 1 7 : Nat) : Int))
            (parse_date_mmmd "Jan 5, 2024").1 = false)
          ↔ (parse_date_mmmd "Jan 5, 2024").1 = none
            ∨ ∃ d, (parse_date_mmmd "Jan 5, 2024").1 = some d
                ∧ ((dateOrdinal 2024 1 7 : Nat) : Int) - 2 ≤ (d.dateOrd : Int)))
    ∧ (filteredOut (minDocDateOf 2 ((dateOrdinal 2024 1 7 : Nat) : Int))
          (parse_date_mmmd (rowDocDateRaw
            (mkRow "D9" "" "" "Jan 4, 2024" "" "" "" "" "" "" ""))).1 = true
        ∧ processRow "c" 6 (minDocDateOf 2 ((dateOrdinal 2024 1 7 : Nat) : Int))
            (AggSt.mk [] [] 0) (mkRow "D9" "" "" "Jan 4, 2024" "" "" "" "" "" "" "")
          = AggSt.mk [] [] 0) :=
  ⟨⟨by decide,
    (claim_C3_date_filter 2 ((dateOrdinal 2024 1 7 : Nat) : Int)).2.1 (by decide)
      (parse_date_mmmd "Jan 5, 2024").1⟩,
   ⟨by decide,
    (claim_C3_date_filter 2 ((dateOrdinal 2024 1 7 : Nat) : Int)).2.2 "c" 6
      (AggSt.mk [] [] 0) (mkRow "D9" "" "" "Jan 4, 2024" "" "" "" "" "" "" "")
      (by decide)⟩⟩

/-- C4: every output record's `Party1..PartyN` slots (`N = max_parties`) hold,
in first-occurrence order over the accepted rows of its doc number (each row
contributing `party_text` then `additional_party_text`), the distinct
non-empty trimmed party strings (exact-string dedup after trimming),
truncated to `max_parties`; slots beyond the accumulated list stay `""`, and
no `Party` slot beyond `PartyN` exists on the record. -/
theorem claim_C4_parties (rows : List Row) (slug : String) (mp : Nat)
    (daysBack nowOrd : Int) (r : Rec)
    (hr : r ∈ rows_to_records rows slug mp daysBack nowOrd) :
    ∃ k : String, odGetD r "Doc Number" Val.vNone = Val.vStr k
      ∧ (∀ i, 1 ≤ i → i ≤ mp → odGetD r (partyKey i) Val.vNone
          = Val.vStr (((specPartyList (minDocDateOf daysBack nowOrd) rows k).take mp).getD
              (i - 1) ""))
      ∧ ∀ j, mp < j → partyKey j ∉ odKeys r := by
  obtain ⟨k, h1, h2, h3⟩ := rows_to_records_mem_char rows slug mp daysBack nowOrd r hr
  refine ⟨k, h1, h3, ?_⟩
  intro j hj
  rw [h2]
  exact partyKey_not_mem_recKeys mp j hj

/-- C4 witness: two rows for `D1` with parties ALPHA/BETA then ALPHA/GAMMA
and `max_parties = 2`. -/
theorem claim_C4_parties_witness :
    ((rows_to_records
        [mkRow "D1" "ALPHA" "" "" "" "" "" "" "" "BETA" "",
         mkRow "D1" "ALPHA" "" "" "" "" "" "" "" "GAMMA" ""] "c" 2 0 0).getD 0 []
      ∈ rows_to_records
        [mkRow "D1" "ALPHA" "" "" "" "" "" "" "" "BETA" "",
         mkRow "D1" "ALPHA" "" "" "" "" "" "" "" "GAMMA" ""] "c" 2 0 0)
    ∧ ∃ k : String,
      odGetD ((rows_to_records
          [mkRow "D1" "ALPHA" "" "" "" "" "" "" "" "BETA" "",
           mkRow "D1" "ALPHA" "" "" "" "" "" "" "" "GAMMA" ""] "c" 2 0 0).getD 0 [])
          "Doc Number" Val.vNone = Val.vStr k
      ∧ (∀ i, 1 ≤ i → i ≤ 2 →
          odGetD ((rows_to_records
              [mkRow "D1" "ALPHA" "" "" "" "" "" "" "" "BETA" "",
               mkRow "D1" "ALPHA" "" "" "" "" "" "" "" "GAMMA" ""] "c" 2 0 0).getD 0 [])
              (partyKey i) Val.vNone
            = Val.vStr (((specPartyList (minDocDateOf 0 0)
                [mkRow "D1" "ALPHA" "" "" "" "" "" "" "" "BETA" "",
                 mkRow "D1" "ALPHA" "" "" "" "" "" "" "" "GAMMA" ""] k).take 2).getD
                (i - 1) ""))
      ∧ ∀ j, 2 < j → partyKey j ∉ odKeys ((rows_to_records
          [mkRow "D1" "ALPHA" "" "" "" "" "" "" "" "BETA" "",
           mkRow "D1" "ALPHA" "" "" "" "" "" "" "" "GAMMA" ""] "c" 2 0 0).getD 0 []) :=
  ⟨by decide,
   claim_C4_parties
     [mkRow "D1" "ALPHA" "" "" "" "" "" "" "" "BETA" "",
      mkRow "D1" "ALPHA" "" "" "" "" "" "" "" "GAMMA" ""] "c" 2 0 0
     ((rows_to_records
        [mkRow "D1" "ALPHA" "" "" "" "" "" "" "" "BETA" "",
         mkRow "D1" "ALPHA" "" "" "" "" "" "" "" "GAMMA" ""] "c" 2 0 0).getD 0 [])
     (by decide)⟩

/-- C7: the `Pages` field.  On a doc number's first accepted row the stored
value is the integer coercion of the pages cell when it parses and the raw
string verbatim otherwise; on a repeat row the coercion is re-attempted
exactly when the stored value is a string or falsy and the cell is
non-empty; a stored non-zero integer is never overwritten. -/
theorem claim_C7_pages (slug : String) (mp : Nat) (mdd : Option Int) (st : AggSt)
    (row : Row) (hacc : rowAccepted mdd row = true) :
    (odGet st.bucket (rowDocNumber row) = none →
      ∃ r1 : Rec, odGet (processRow slug mp mdd st row).bucket (rowDocNumber row) = some r1
        ∧ odGetD r1 "Pages" Val.vNone =
            (match pyToInt (rowPages row) with
             | some n => Val.vInt n
             | none => Val.vStr (rowPages row)))
    ∧ ∀ r0 : Rec, odGet st.bucket (rowDocNumber row) = some r0 →
        ∃ r1 : Rec, odGet (processRow slug mp mdd st row).bucket (rowDocNumber row) = some r1
          ∧ odGetD r1 "Pages" Val.vNone =
              (if ((odGetD r0 "Pages" Val.vNone).isStr || (odGetD r0 "Pages" Val.vNone).falsy)
                  && rowPages row != ""
               then coercePages (rowPages row) else odGetD r0 "Pages" Val.vNone)
          ∧ ∀ n : Int, n ≠ 0 → odGetD r0 "Pages" Val.vNone = Val.vInt n →
              odGetD r1 "Pages" Val.vNone = Val.vInt n := by
  constructor
  · intro hnew
    refine ⟨updateRec (mkRecord slug (st.count + 1) mp (rowDocNumber row) (rowBookPage row)
        (rowDocDateRaw row) (rowRecordedDateRaw row) (rowDocType row) (rowAssocDoc row)
        (rowLegalSummary row) (rowConsideration row) (rowPages row))
      (rowBookPage row) (rowDocDateRaw row) (rowRecordedDateRaw row) (rowDocType row)
      (rowAssocDoc row) (rowLegalSummary row) (rowPages row), ?_, ?_⟩
    · rw [processRow_accepted_new slug mp mdd st row hacc hnew]
      exact odGet_odSet_self _ _ _
    · rw [odGetD_updateRec_pages, odGetD_mkRecord_pages, ite_self]
      rfl
  · intro r0 hr0
    refine ⟨updateRec r0 (rowBookPage row) (rowDocDateRaw row) (rowRecordedDateRaw row)
      (rowDocType row) (rowAssocDoc row) (rowLegalSummary row) (rowPages row), ?_,
      odGetD_updateRec_pages _ _ _ _ _ _ _ _, ?_⟩
    · rw [processRow_accepted_old slug mp mdd st row r0 hacc hr0]
      exact odGet_odSet_self _ _ _
    · intro n hn hstored
      rw [odGetD_updateRec_pages, hstored]
      have hc : ((Val.vInt n).isStr || (Val.vInt n).falsy) = false := by
        simp [Val.isStr, Val.falsy, hn]
      rw [hc, Bool.false_and, if_neg (by decide)]

/-- C7 witness: a repeat row with pages `"4"` against a stored string value
`"x"` re-coerces to the integer 4. -/
theorem claim_C7_pages_witness :
    rowAccepted none (mkRow "D1" "" "" "" "" "" "" "" "" "" "4") = true
    ∧ odGet (AggSt.mk [("D1", [("Pages", Val.vStr "x")])] [] 1).bucket
        (rowDocNumber (mkRow "D1" "" "" "" "" "" "" "" "" "" "4"))
        = some [("Pages", Val.vStr "x")]
    ∧ ∃ r1 : Rec,
        odGet (processRow "c" 1 none (AggSt.mk [("D1", [("Pages", Val.vStr "x")])] [] 1)
            (mkRow "D1" "" "" "" "" "" "" "" "" "" "4")).bucket
          (rowDocNumber (mkRow "D1" "" "" "" "" "" "" "" "" "" "4")) = some r1
        ∧ odGetD r1 "Pages" Val.vNone =
            (if ((odGetD [("Pages", Val.vStr "x")] "Pages" Val.vNone).isStr
                  || (odGetD [("Pages", Val.vStr "x")] "Pages" Val.vNone).falsy)
                && rowPages (mkRow "D1" "" "" "" "" "" "" "" "" "" "4") != ""
             then coercePages (rowPages (mkRow "D1" "" "" "" "" "" "" "" "" "" "4"))
             else odGetD [("Pages", Val.vStr "x")] "Pages" Val.vNone)
        ∧ ∀ n : Int, n ≠ 0 →
            odGetD [("Pages", Val.vStr "x")] "Pages" Val.vNone = Val.vInt n →
            odGetD r1 "Pages" Val.vNone = Val.vInt n :=
  ⟨by decide, by decide,
   (claim_C7_pages "c" 1 none (AggSt.mk [("D1", [("Pages", Val.vStr "x")])] [] 1)
     (mkRow "D1" "" "" "" "" "" "" "" "" "" "4") (by decide)).2
     [("Pages", Val.vStr "x")] (by decide)⟩

/-- C9 counterexample: the claim fails — an empty `Book & Page` cell makes
the local `book_page` (and the new record's `Book & Page` field) Python
`None`, not the empty string, because of the `or None` in
`book_page = safe_text(tds[5]) or None`. -/
theorem claim_C9_counterexample :
    rowBookPageStr (mkRow "D1" "" "" "" "" "" "" "" "" "" "") = ""
    ∧ (rows_to_records [mkRow "D1" "" "" "" "" "" "" "" "" "" ""] "c" 1 0 0).map
        (fun r => odGetD r "Book & Page" Val.vNone) = [Val.vNone]
    ∧ Val.vNone ≠ Val.vStr "" :=
  ⟨by decide, by decide, by decide⟩

/-- C9 (amended): on a doc number's first accepted row the record's
`Book & Page` field is the non-empty trimmed cell text as a string, and
`None` (not `""`) when the cell text is empty; it is never the empty
string. -/
theorem claim_C9_book_page (slug : String) (mp : Nat) (mdd : Option Int) (st : AggSt)
    (row : Row) (hacc : rowAccepted mdd row = true)
    (hnew : odGet st.bucket (rowDocNumber row) = none) :
    ∃ r1 : Rec,
      odGet (processRow slug mp mdd st row).bucket (rowDocNumber row) = some r1
      ∧ odGetD r1 "Book & Page" Val.vNone =
          (if rowBookPageStr row = "" then Val.vNone else Val.vStr (rowBookPageStr row))
      ∧ odGetD r1 "Book & Page" Val.vNone ≠ Val.vStr "" := by
  refine ⟨updateRec (mkRecord slug (st.count + 1) mp (rowDocNumber row) (rowBookPage row)
      (rowDocDateRaw row) (rowRecordedDateRaw row) (rowDocType row) (rowAssocDoc row)
      (rowLegalSummary row) (rowConsideration row) (rowPages row))
    (rowBookPage row) (rowDocDateRaw row) (rowRecordedDateRaw row) (rowDocType row)
    (rowAssocDoc row) (rowLegalSummary row) (rowPages row), ?_, ?_, ?_⟩
  · rw [processRow_accepted_new slug mp mdd st row hacc hnew]
    exact odGet_odSet_self _ _ _
  · rw [odGetD_updateRec_bookPage, odGetD_mkRecord_bookPage, Bool.and_not_self,
      if_neg (by decide)]
    rfl
  · rw [odGetD_updateRec_bookPage, odGetD_mkRecord_bookPage, Bool.and_not_self,
      if_neg (by decide)]
    rw [show rowBookPage row
        = (if rowBookPageStr row = "" then Val.vNone else Val.vStr (rowBookPageStr row))
      from rfl]
    by_cases hbp : rowBookPageStr row = ""
    · rw [if_pos hbp]
      intro hco
      exact Val.noConfusion hco
    · rw [if_neg hbp]
      intro hco
      exact hbp (Val.vStr.inj hco)

/-- C9 witness: the amended theorem applied at a first-occurrence row with a
non-empty `Book & Page` cell. -/
theorem claim_C9_book_page_witness :
    rowAccepted none (mkRow "D1" "" "B201/77" "" "" "" "" "" "" "" "") = true
    ∧ odGet (AggSt.mk [] [] 0).bucket
        (rowDocNumber (mkRow "D1" "" "B201/77" "" "" "" "" "" "" "" "")) = none
    ∧ ∃ r1 : Rec,
        odGet (processRow "c" 1 none (AggSt.mk [] [] 0)
            (mkRow "D1" "" "B201/77" "" "" "" "" "" "" "" "")).bucket
          (rowDocNumber (mkRow "D1" "" "B201/77" "" "" "" "" "" "" "" "")) = some r1
        ∧ odGetD r1 "Book & Page" Val.vNone =
            (if rowBookPageStr (mkRow "D1" "" "B201/77" "" "" "" "" "" "" "" "") = ""
             then Val.vNone
             else Val.vStr (rowBookPageStr (mkRow "D1" "" "B201/77" "" "" "" "" "" "" "" "")))
        ∧ odGetD r1 "Book & Page" Val.vNone ≠ Val.vStr "" :=
  ⟨by decide, by decide,
   claim_C9_book_page "c" 1 none (AggSt.mk [] [] 0)
     (mkRow "D1" "" "B201/77" "" "" "" "" "" "" "" "") (by decide) (by decide)⟩

end Laredo
